import Mathlib

/-!
Verification of the pyam `IamDataFrame` core engine (`pyam/core.py`):
the filter engine (`filter` / `_apply_filters`), the rename/merge engine
(`rename`), container append (`append`), and the aggregation consistency
check (`check_aggregate` / `_exclude_on_fail`).

The embedding models the long-form data table as a list of rows with exact
integer values (an exact stand-in for the float value column), the meta table as a rectangular table of optional values
(`na` standing for pandas NaN), and fallible operations as `Except`.
Helper functions of the repository that live outside `core.py`
(`pyam.utils.pattern_match` and friends, `pyam._aggregate`) are modelled
from the specification, as marked in their doc comments.
-/

set_option synthInstance.maxSize 20000

namespace Pyam

/-! ## Generic list helpers (pandas-style dedup/duplicated semantics) -/

/-- Drop elements whose image under `f` was already seen, keeping the first
occurrence of each image (pandas `drop_duplicates(keep=first)` on the
projected value). -/
def dropDupsBy {α β : Type} [DecidableEq β] (f : α → β) : List β → List α → List α
  | _, [] => []
  | seen, x :: xs =>
    if f x ∈ seen then dropDupsBy f seen xs
    else x :: dropDupsBy f (f x :: seen) xs

/-- First-occurrence deduplication (pandas `Index.drop_duplicates`). -/
def firstDedup {α : Type} [DecidableEq α] (l : List α) : List α :=
  dropDupsBy id [] l

/-- The elements marked by pandas `duplicated()`: every occurrence that has
an earlier equal element (the `seen` accumulator holds earlier elements). -/
def dupElems {α : Type} [DecidableEq α] : List α → List α → List α
  | _, [] => []
  | seen, x :: xs =>
    if x ∈ seen then x :: dupElems seen xs
    else dupElems (x :: seen) xs

/-- Select the elements of `l` marked `true` in the boolean mask
(`DataFrame.__getitem__` with a boolean array). -/
def selectMask {α : Type} : List α → List Bool → List α
  | [], _ => []
  | _, [] => []
  | x :: xs, b :: bs => if b then x :: selectMask xs bs else selectMask xs bs

/-! ## Data model -/

/-- A point on the time axis.  In `year` mode only the `year` component is
meaningful; in `time` (datetime) mode the remaining components model the
sub-annual parts of a timestamp. -/
structure PyTime where
  year : Int
  month : Int
  day : Int
  hour : Int
deriving DecidableEq

/-- One long-form data row: `model, scenario, region, variable, unit`, the
time value, the extra-column values (positionally aligned with the
container's `extra_cols`), and the numeric `value`. -/
structure Row where
  model : String
  scenario : String
  region : String
  «variable» : String
  unit : String
  time : PyTime
  extra : List String
  value : ℤ
deriving DecidableEq

/-- The long-index tuple of a row: every column except `value`
(`_LONG_IDX = IAMC_IDX + [time_col] + extra_cols`). -/
abbrev LongIdx :=
  String × String × String × String × String × PyTime × List String

def Row.longIdx (r : Row) : LongIdx :=
  (r.model, r.scenario, r.region, r.«variable», r.unit, r.time, r.extra)

/-- Rebuild a row from a long-index tuple and a value (`reset_index`). -/
def rowOfIdx (k : LongIdx) (v : ℤ) : Row :=
  ⟨k.1, k.2.1, k.2.2.1, k.2.2.2.1, k.2.2.2.2.1, k.2.2.2.2.2.1,
    k.2.2.2.2.2.2, v⟩

/-- A meta-table cell: string, boolean or numeric value, or missing (NaN). -/
inductive MVal where
  | s (v : String)
  | b (v : Bool)
  | q (v : ℤ)
  | na
deriving DecidableEq

/-- One meta-table row, keyed by `(model, scenario)`; `vals` is positionally
aligned with the table's column list. -/
structure MetaRow where
  model : String
  scenario : String
  vals : List MVal
deriving DecidableEq

/-- The meta table: column names (always containing `exclude`) and rows. -/
structure Meta where
  cols : List String
  rows : List MetaRow
deriving DecidableEq

def MetaRow.key (mr : MetaRow) : String × String := (mr.model, mr.scenario)

def metaKeys (m : Meta) : List (String × String) := m.rows.map MetaRow.key

/-- Embedding of `meta.loc[keys]`: reindex the meta rows to the given key list (keys with
no meta row are dropped). -/
def metaLoc (m : Meta) (keys : List (String × String)) : Meta :=
  { cols := m.cols
    rows := keys.filterMap (fun k =>
      m.rows.find? (fun mr => mr.model == k.1 && mr.scenario == k.2)) }

/-- The position of column `c` in a column list. -/
def colIdx : List String → String → Option Nat
  | [], _ => none
  | a :: as, c => if a == c then some 0 else (colIdx as c).map (fun i => i + 1)

/-- Value of meta column `c` in row `mr` given the table's column list. -/
def mvalAtRow (cols : List String) (c : String) (mr : MetaRow) : MVal :=
  match colIdx cols c with
  | some i => mr.vals.getD i .na
  | none => .na

/-- Value of meta column `c` for scenario key `k` (`meta.loc[k, c]`). -/
def metaAt (m : Meta) (k : String × String) (c : String) : MVal :=
  match m.rows.find? (fun mr => mr.model == k.1 && mr.scenario == k.2) with
  | some mr => mvalAtRow m.cols c mr
  | none => .na

/-- Update meta column `c` of row `mr` to `v` (no-op if the column does not
exist, mirroring that `meta.loc[idx, c] = v` only touches column `c`). -/
def setMetaVal (cols : List String) (c : String) (v : MVal) (mr : MetaRow) :
    MetaRow :=
  match colIdx cols c with
  | some i => { mr with vals := mr.vals.set i v }
  | none => mr

/-- The scenario container: long-form data, the time-column name (`year` or
`time`), the extra data columns, and the meta table. -/
structure IamDataFrame where
  data : List Row
  time_col : String
  extra_cols : List String
  meta : Meta
deriving DecidableEq

/-- The columns of the long-form `data` table, in pandas order. -/
def dataColumns (df : IamDataFrame) : List String :=
  ["model", "scenario", "region", "variable", "unit", df.time_col]
    ++ df.extra_cols ++ ["value"]

/-- The data columns that are part of the long index but not of `META_IDX`
(`data_cols = set(self._LONG_IDX) - set(META_IDX)` in `rename`). -/
def dataCols (df : IamDataFrame) : List String :=
  ["region", "variable", "unit", df.time_col] ++ df.extra_cols

/-- A dynamically-typed Python value, used where the source accepts
arguments of arbitrary type (the `keep` argument of `filter`). -/
inductive PyVal where
  | pyBool (b : Bool)
  | pyInt (n : Int)
  | pyStr (s : String)
deriving DecidableEq

/-! ## Pattern matching (modelled from the spec)

`pattern_match`, `years_match`, `month_match`, `day_match`, `hour_match`,
`datetime_match` and `find_depth` live in `pyam/utils.py`, which is not part
of the sources; they are modelled from the specification. -/

/-- Modelled from the spec: pseudo-regexp matching of one pattern
(`pyam.utils.pattern_match`, default mode).  A pattern with no `*` matches
only by exact equality; `*` matches any character sequence; all other
characters are literal; the match is anchored at both ends. -/
def globList : List Char → List Char → Bool
  | [], s => s.isEmpty
  | c :: ps, s =>
    if c == '*' then
      (List.range (s.length + 1)).any (fun i => globList ps (s.drop i))
    else match s with
      | [] => false
      | c' :: s' => c == c' && globList ps s'

/-- Modelled from the spec: full-regexp matching (`regexp=True` mode), in
which pattern strings are treated as regular expressions.  This embedding
implements the regular-expression subset of literal characters, `.` (any
single character) and postfix `*` (zero or more of the previous element),
anchored at both ends. -/
def reMatch : List Char → List Char → Bool
  | [], s => s.isEmpty
  | c :: '*' :: ps, s =>
    (List.range ((s.takeWhile (fun x => c == '.' || c == x)).length + 1)).any
      (fun i => reMatch ps (s.drop i))
  | c :: ps, s =>
    match s with
    | [] => false
    | x :: s' => (c == '.' || c == x) && reMatch ps s'

/-- Modelled from the spec: a list of patterns matches a string value if any
single pattern matches it. -/
def matchStr (regexp : Bool) (pats : List String) (v : String) : Bool :=
  pats.any (fun p =>
    if regexp then reMatch p.toList v.toList else globList p.toList v.toList)

/-- Modelled from the spec: the depth of a variable is the count of `|`
separators (`pyam.utils.find_depth` with no pattern). -/
def findDepth (v : String) : Nat :=
  (v.toList.filter (fun c => c == '|')).length

/-- Modelled from the spec: the depth of a variable relative to a pattern,
excluding the `|` separators of the pattern itself (`find_depth` with a
pattern argument; the filter docstring: the number of `|`, excluding the
strings given in the `variable` argument). -/
def relDepth (pat v : String) : Int :=
  (findDepth v : Int) - (findDepth pat : Int)

/-! ## Filter engine (`IamDataFrame.filter` / `_apply_filters`) -/

/-- A filter value, as accepted by `_apply_filters` for one dimension. -/
inductive FilterVal where
  | strs (pats : List String)
  | ints (vals : List Int)
  | nums (vals : List ℤ)
  | bool (b : Bool)
  | times (vals : List PyTime)
deriving DecidableEq

/-- A filter specification: the kwargs dict of `filter`, as an association
list from column name to value (`none` models a Python `None` value). -/
abbrev FilterSpec := List (String × Option FilterVal)

/-- Look up a key of the spec (Python dict access; first occurrence). -/
def specLookup (spec : FilterSpec) (c : String) : Option FilterVal :=
  match spec.find? (fun e => e.1 == c) with
  | some e => e.2
  | none => none

/-- Embedding of `c in filters.keys()`: presence of the key, value `None` included. -/
def specHasKey (spec : FilterSpec) (c : String) : Bool :=
  spec.any (fun e => e.1 == c)

/-- Embedding of `regexp = filters.pop('regexp', False)`. -/
def regexpFlag (spec : FilterSpec) : Bool :=
  match specLookup spec "regexp" with
  | some (.bool b) => b
  | _ => false

/-- Modelled from the spec: matching a filter value against a meta cell;
string cells use pattern matching, numeric and boolean cells use exact
membership, missing cells never match. -/
def matchMVal (regexp : Bool) (v : FilterVal) (mv : MVal) : Bool :=
  match mv, v with
  | .s x, .strs pats => matchStr regexp pats x
  | .q x, .nums ns => ns.contains x
  | .b x, .bool b => x == b
  | _, _ => false

/-- Modelled from the spec: `years_match` and the month/day/hour component
matchers are integer membership tests. -/
def intsMatch (v : FilterVal) (x : Int) : Bool :=
  match v with
  | .ints l => l.contains x
  | _ => false

/-- Modelled from the spec: `datetime_match` is a full-timestamp membership
test. -/
def timesMatch (v : FilterVal) (t : PyTime) : Bool :=
  match v with
  | .times l => l.contains t
  | _ => false

/-- Membership test for numeric data columns (the `value` column). -/
def numsMatch (v : FilterVal) (x : ℤ) : Bool :=
  match v with
  | .nums l => l.contains x
  | _ => false

/-- String-pattern matching of a filter value (non-string values match
nothing on a string column). -/
def matchVal (regexp : Bool) (v : FilterVal) (x : String) : Bool :=
  match v with
  | .strs pats => matchStr regexp pats x
  | _ => false

/-- Modelled from the spec: `pattern_match` on the variable column with a
co-occurring `level`: each pattern must match and the depth of the value
relative to that pattern must equal one of the given levels. -/
def matchVarLevel (regexp : Bool) (v : FilterVal) (ls : List Int) (x : String) :
    Bool :=
  match v with
  | .strs pats => pats.any (fun p =>
      (if regexp then reMatch p.toList x.toList
       else globList p.toList x.toList)
      && ls.contains (relDepth p x))
  | _ => false

/-- The string value of a named string data column of a row (`model`,
`scenario`, `region`, `unit` or an extra column). -/
def dataColStr (df : IamDataFrame) (col : String) (r : Row) : Option String :=
  if col == "model" then some r.model
  else if col == "scenario" then some r.scenario
  else if col == "region" then some r.region
  else if col == "unit" then some r.unit
  else match colIdx df.extra_cols col with
    | some i => some (r.extra.getD i "")
    | none => none

/-- The sub-mask value of one `(col, value)` filter entry for one row,
following the dispatch order of `_apply_filters` in `core.py`. -/
def rowKeep1 (df : IamDataFrame) (spec : FilterSpec) (regexp : Bool)
    (col : String) (v : FilterVal) (r : Row) : Bool :=
  if df.meta.cols.contains col then
    (df.meta.rows.filter
        (fun mr => matchMVal regexp v (mvalAtRow df.meta.cols col mr))).any
      (fun mr => mr.model == r.model && mr.scenario == r.scenario)
  else if col == "variable" then
    match specLookup spec "level" with
    | some (.ints ls) => matchVarLevel regexp v ls r.«variable»
    | _ => matchVal regexp v r.«variable»
  else if col == "year" then intsMatch v r.time.year
  else if col == "month" && df.time_col == "time" then intsMatch v r.time.month
  else if col == "day" && df.time_col == "time" then intsMatch v r.time.day
  else if col == "hour" && df.time_col == "time" then intsMatch v r.time.hour
  else if col == "time" && df.time_col == "time" then timesMatch v r.time
  else if col == "level" then
    if specHasKey spec "variable" then true
    else match v with
      | .ints ls => ls.contains ((findDepth r.«variable» : Int))
      | _ => false
  else if (dataColumns df).contains col then
    if col == "value" then numsMatch v r.value
    else match dataColStr df col r with
      | some x => matchVal regexp v x
      | none => false
  else true

/-- The combined row mask: sub-masks of all entries combined with logical
AND; entries with value `None` and the popped `regexp` option impose no
constraint. -/
def rowKeep (df : IamDataFrame) (spec : FilterSpec) (r : Row) : Bool :=
  spec.all (fun e =>
    if e.1 == "regexp" then true
    else match e.2 with
      | none => true
      | some v => rowKeep1 df spec (regexpFlag spec) e.1 v r)

/-- Errors raised by `filter` (`ValueError`s in the source, labelled by
their raise site). -/
inductive FilterError where
  | unsupported (col : String)
  | keepNotBool
deriving DecidableEq

/-- A filter key is recognized if some dispatch branch of `_apply_filters`
handles it (otherwise `_raise_filter_error` fires). -/
def recognized (df : IamDataFrame) (col : String) : Bool :=
  df.meta.cols.contains col || col == "variable" || col == "year"
    || ((col == "month" || col == "day" || col == "hour" || col == "time")
          && df.time_col == "time")
    || col == "level" || (dataColumns df).contains col

/-- Walk the spec in order and raise on the first unknown key; `None`-valued
entries and the popped `regexp` option are skipped. -/
def checkFilterKeys (df : IamDataFrame) : FilterSpec → Except FilterError Unit
  | [] => .ok ()
  | (col, v) :: rest =>
    if col == "regexp" || v.isNone then checkFilterKeys df rest
    else if recognized df col then checkFilterKeys df rest
    else .error (.unsupported col)

/-- Embedding of `IamDataFrame._apply_filters`: the boolean row mask, or the error of the
first unsupported filter key. -/
def applyFilters (df : IamDataFrame) (spec : FilterSpec) :
    Except FilterError (List Bool) :=
  match checkFilterKeys df spec with
  | .error e => .error e
  | .ok _ => .ok (df.data.map (rowKeep df spec))

/-- Embedding of `IamDataFrame.filter` with a boolean `keep`: select the rows of the
(possibly inverted) mask and restrict `meta` to the surviving scenario
keys. -/
def filterB (df : IamDataFrame) (spec : FilterSpec) (keep : Bool) :
    Except FilterError IamDataFrame :=
  match applyFilters df spec with
  | .error e => .error e
  | .ok mask =>
    let mask := if keep then mask else mask.map (fun b => !b)
    let data' := selectMask df.data mask
    let idx := firstDedup (data'.map (fun r => (r.model, r.scenario)))
    .ok { df with data := data', meta := metaLoc df.meta idx }

/-- Embedding of `IamDataFrame.filter`: the `keep` argument is checked to be a boolean
before any filter is evaluated. -/
def filterTop (df : IamDataFrame) (keep : PyVal) (spec : FilterSpec) :
    Except FilterError IamDataFrame :=
  match keep with
  | .pyBool b => filterB df spec b
  | _ => .error .keepNotBool

/-! ## Group-and-sum (`groupby(...).sum()` over the long index) -/

/-- The value at long-index key `k`: the sum over all rows with that key. -/
def sumAt (l : List Row) (k : LongIdx) : ℤ :=
  ((l.filter (fun r => r.longIdx == k)).map Row.value).sum

/-- Embedding of `data.groupby(LONG_IDX).sum().reset_index()`: one row per distinct
long-index tuple, holding the sum of the values with that tuple. -/
def groupBySum (l : List Row) : List Row :=
  (firstDedup (l.map Row.longIdx)).map (fun k => rowOfIdx k (sumAt l k))

/-- Embedding of `_group_and_agg(df, [], 'sum')` as a keyed series: group by every column
except `value` and sum. -/
def groupSumSeries (l : List Row) : List (LongIdx × ℤ) :=
  (firstDedup (l.map Row.longIdx)).map (fun k => (k, sumAt l k))

/-! ## Rename/merge engine (`IamDataFrame.rename`) -/

/-- A rename mapping: column name to a list of (old value, new value). -/
abbrev RenameMapping := List (String × List (String × String))

/-- Errors raised by `rename` (`ValueError`s in the source, labelled by
their raise site). -/
inductive RenameError where
  | indexAndData
  | filterError (e : FilterError)
  | nonUniqueIndex (col : String)
  | notSupported (col : String)
  | duplicateRows (rows : List LongIdx)
deriving DecidableEq

/-- Embedding of `Series.replace(mapping)`: exact-value substitution. -/
def replaceVal (m : List (String × String)) (v : String) : String :=
  match m.lookup v with
  | some w => w
  | none => v

/-- Apply the rename mapping of one column to one row (`_data.loc[rows, col]
= _data.loc[rows, col].replace(mapping)`).  A mapping on the time column is
the identity: its string keys never equal a time value. -/
def replaceRowCol (df : IamDataFrame) (col : String)
    (m : List (String × String)) (r : Row) : Row :=
  if col == "model" then { r with model := replaceVal m r.model }
  else if col == "scenario" then { r with scenario := replaceVal m r.scenario }
  else if col == "region" then { r with region := replaceVal m r.region }
  else if col == "variable" then
    { r with «variable» := replaceVal m r.«variable» }
  else if col == "unit" then { r with unit := replaceVal m r.unit }
  else match colIdx df.extra_cols col with
    | some i => { r with extra := r.extra.set i (replaceVal m (r.extra.getD i "")) }
    | none => r

/-- The filter arguments derived from a rename mapping
(`filters = {col: _from.keys()}`). -/
def renameFilters (mapping : RenameMapping) : FilterSpec :=
  mapping.map (fun e => (e.1, some (FilterVal.strs (e.2.map Prod.fst))))

/-- The row mask of a rename call, when the derived filter succeeds. -/
def renameMask (df : IamDataFrame) (mapping : RenameMapping) : List Bool :=
  match applyFilters df (renameFilters mapping) with
  | .ok m => m
  | .error _ => []

/-- Apply all column renamings to the selected rows of the data table. -/
def renamedData (df : IamDataFrame) (mapping : RenameMapping)
    (mask : List Bool) : List Row :=
  mapping.foldl
    (fun d e =>
      List.zipWith (fun r b => if b then replaceRowCol df e.1 e.2 r else r)
        d mask)
    df.data

/-- Rewrite the meta index for a `model`/`scenario` rename, restricted to
the scenario keys present in the selected data rows, and fail if the
rewritten index has duplicates. -/
def renameMetaStep (selKeys : List (String × String)) (meta : Meta)
    (col : String) (m : List (String × String)) : Except RenameError Meta :=
  let rows' := meta.rows.map (fun mr =>
    if selKeys.contains mr.key then
      (if col == "model" then { mr with model := replaceVal m mr.model }
       else { mr with scenario := replaceVal m mr.scenario })
    else mr)
  if (rows'.map MetaRow.key).Nodup then .ok { meta with rows := rows' }
  else .error (.nonUniqueIndex col)

/-- The per-column loop of `rename`: rewrite the meta index for index
columns, reject columns that are neither index nor data columns. -/
def renameMetaFold (selKeys : List (String × String)) (dcols : List String)
    (meta : Meta) : RenameMapping → Except RenameError Meta
  | [] => .ok meta
  | (col, m) :: rest =>
    if col == "model" || col == "scenario" then
      match renameMetaStep selKeys meta col m with
      | .error e => .error e
      | .ok meta' => renameMetaFold selKeys dcols meta' rest
    else if dcols.contains col then renameMetaFold selKeys dcols meta rest
    else .error (.notSupported col)

/-- The scenario keys present in the selected data rows
(`ret.meta.index.isin(_make_index(ret.data[rows]))`). -/
def renameSelKeys (df : IamDataFrame) (mask : List Bool) :
    List (String × String) :=
  firstDedup ((selectMask df.data mask).map (fun r => (r.model, r.scenario)))

/-- The duplicated long-index tuples between the renamed selection and the
untouched remainder (`merged.duplicated()` over the two deduplicated
parts). -/
def renameDups (df : IamDataFrame) (mapping : RenameMapping)
    (mask : List Bool) : List LongIdx :=
  dupElems []
    (firstDedup ((selectMask (renamedData df mapping mask) mask).map
        Row.longIdx)
      ++ firstDedup ((selectMask (renamedData df mapping mask)
          (mask.map (fun b => !b))).map Row.longIdx))

/-- Embedding of `IamDataFrame.rename` with `append=False`: select the rows matching all
old values, apply the substitutions, optionally check for collisions
between renamed and untouched rows, and merge duplicates by grouped
summation. -/
def rename (df : IamDataFrame) (mapping : RenameMapping)
    (check_duplicates : Bool) : Except RenameError IamDataFrame :=
  if (mapping.any (fun e => e.1 == "model" || e.1 == "scenario"))
      && (mapping.any (fun e => (dataCols df).contains e.1)) then
    .error .indexAndData
  else
    match applyFilters df (renameFilters mapping) with
    | .error e => .error (.filterError e)
    | .ok mask =>
      match renameMetaFold (renameSelKeys df mask) (dataCols df) df.meta
          mapping with
      | .error e => .error e
      | .ok meta' =>
        if check_duplicates && !(renameDups df mapping mask).isEmpty then
          .error (.duplicateRows (firstDedup (renameDups df mapping mask)))
        else
          .ok { df with data := groupBySum (renamedData df mapping mask)
                        meta := meta' }

/-! ## Append (`IamDataFrame.append`) -/

/-- Errors raised by `append` (`ValueError`s in the source, labelled by
their raise site). -/
inductive AppendError where
  | timeFormat
  | metaConflict (keys : List (String × String))
  | duplicateRows
deriving DecidableEq

/-- The meta columns present in both containers
(`[i for i in other.meta.columns if i in ret.meta.columns]`). -/
def sharedCols (a b : Meta) : List String :=
  b.cols.filter (fun c => a.cols.contains c)

/-- Embedding of `meta.loc[keys, cols]`: the value matrix of the given keys and columns,
in the given orders. -/
def subFrame (m : Meta) (keys : List (String × String)) (cols : List String) :
    List (List MVal) :=
  keys.map (fun k => cols.map (fun c => metaAt m k c))

/-- The scenario keys reported on a meta conflict: the index of
`pd.concat([ret.meta.loc[intersect, cols], other.meta.loc[intersect, cols]])
.drop_duplicates().index.drop_duplicates()` — first occurrences of distinct
value rows, then first-occurrence key dedup. -/
def conflictKeys (a b : Meta) (intersect : List (String × String))
    (cols : List String) : List (String × String) :=
  let rows := intersect.zip (subFrame a intersect cols)
    ++ intersect.zip (subFrame b intersect cols)
  firstDedup ((dropDupsBy Prod.snd [] rows).map Prod.fst)

/-- Merge the meta columns of `other` that are new to `ret`, for the shared
scenario keys (`ret.meta.merge(_meta, how=outer, ...)`). -/
def mergeNewCols (a b : Meta) (intersect : List (String × String)) : Meta :=
  let colsNew := b.cols.filter (fun c => !a.cols.contains c)
  { cols := a.cols ++ colsNew
    rows := a.rows.map (fun mr =>
      { mr with vals := mr.vals ++
          (if intersect.contains mr.key then
            colsNew.map (fun c => metaAt b mr.key c)
          else colsNew.map (fun _ => MVal.na)) }) }

/-- Append the meta rows of `other` for scenario keys new to `ret`
(`ret.meta.append(other.meta.loc[diff, :], sort=False)`). -/
def appendMetaRows (a b : Meta) (diff : List (String × String)) : Meta :=
  let colsU := a.cols ++ b.cols.filter (fun c => !a.cols.contains c)
  { cols := colsU
    rows := a.rows.map (fun mr =>
        { mr with vals :=
            (colsU.map (fun c => mvalAtRow a.cols c mr)) })
      ++ diff.map (fun k =>
        { model := k.1, scenario := k.2
          vals := colsU.map (fun c => metaAt b k c) }) }

/-- The scenario keys of `other` already present in `ret`
(`other.meta.index.intersection(ret.meta.index)`). -/
def metaIntersect (a b : Meta) : List (String × String) :=
  (metaKeys b).filter (fun k => (metaKeys a).contains k)

/-- The scenario keys of `other` new to `ret`
(`other.meta.index.difference(ret.meta.index)`). -/
def metaDiff (a b : Meta) : List (String × String) :=
  (metaKeys b).filter (fun k => !(metaKeys a).contains k)

/-- The merged meta table of an append: new columns of `other` are merged
for shared keys, and rows for new keys are appended. -/
def appendMeta (a b : Meta) : Meta :=
  let meta1 := if !(metaIntersect a b).isEmpty then
      mergeNewCols a b (metaIntersect a b)
    else a
  if !(metaDiff a b).isEmpty then appendMetaRows meta1 b (metaDiff a b)
  else meta1

/-- Embedding of `IamDataFrame.append` of another container: check time-format
compatibility, merge the meta tables (raising on conflicting overlapping
values unless ignored), and union the data with a hard duplicate check on
the combined long index. -/
def append (dfA dfB : IamDataFrame) (ignore_meta_conflict : Bool) :
    Except AppendError IamDataFrame :=
  if dfA.time_col != dfB.time_col then .error .timeFormat
  else if !(metaIntersect dfA.meta dfB.meta).isEmpty && !ignore_meta_conflict
      && subFrame dfA.meta (metaIntersect dfA.meta dfB.meta)
          (sharedCols dfA.meta dfB.meta)
        != subFrame dfB.meta (metaIntersect dfA.meta dfB.meta)
          (sharedCols dfA.meta dfB.meta) then
    .error (.metaConflict (conflictKeys dfA.meta dfB.meta
      (metaIntersect dfA.meta dfB.meta) (sharedCols dfA.meta dfB.meta)))
  else if ((dfA.data ++ dfB.data).map Row.longIdx).Nodup then
    .ok { data := dfA.data ++ dfB.data
          time_col := dfA.time_col
          extra_cols := dfA.extra_cols
            ++ dfB.extra_cols.filter (fun c => !dfA.extra_cols.contains c)
          meta := appendMeta dfA.meta dfB.meta }
  else .error .duplicateRows

/-! ## Aggregation consistency check (`IamDataFrame.check_aggregate`) -/

/-- The first list starts the second one. -/
def leadsWith : List Char → List Char → Bool
  | [], _ => true
  | c :: cs, s =>
    match s with
    | [] => false
    | d :: ds => c == d && leadsWith cs ds

/-- Modelled from the spec: `w` is a depth-1 child of `v` in the variable
hierarchy (`v` followed by `|` starts `w`, with one more `|`-segment). -/
def isDirectChild (v w : String) : Bool :=
  leadsWith (v.toList ++ ['|']) w.toList && findDepth w == findDepth v + 1

/-- Modelled from the spec: the default components of `v` are all depth-1
child variables of `v` present in the data. -/
def variableComponents (df : IamDataFrame) (v : String) : List String :=
  firstDedup ((df.data.map Row.«variable»).filter (isDirectChild v))

/-- Modelled from the spec: `pyam._aggregate` with default method `sum` and
default components — relabel every component row as `v`, group by all
long-index columns and sum; `none` when no components are found. -/
def aggregateVar (df : IamDataFrame) (v : String) :
    Option (List (LongIdx × ℤ)) :=
  let comps := variableComponents df v
  if comps.isEmpty then none
  else some (groupSumSeries
    ((df.data.filter (fun r => comps.contains r.«variable»)).map
      (fun r => { r with «variable» := v })))

/-- The grouped series of the existing rows whose variable matches `v`
(`_group_and_agg(self.data[self._apply_filters(variable=v)], [], 'sum')`). -/
def varSeries (df : IamDataFrame) (v : String) : List (LongIdx × ℤ) :=
  groupSumSeries (df.data.filter (fun r => matchStr false [v] r.«variable»))

/-- Look up the value at key `k` in a keyed series. -/
def lookupQ (l : List (LongIdx × ℤ)) (k : LongIdx) : Option ℤ :=
  (l.find? (fun e => e.1 == k)).map Prod.snd

/-- Embedding of `pd.Series.align` with outer join: the union of the keys, with the
value of each side where present (`none` models NaN). -/
def alignOuter (a b : List (LongIdx × ℤ)) :
    List (LongIdx × Option ℤ × Option ℤ) :=
  (firstDedup (a.map Prod.fst ++ b.map Prod.fst)).map
    (fun k => (k, lookupQ a k, lookupQ b k))

/-- Embedding of `np.isclose(a, b, rtol, atol)`: `abs(a - b) <= atol + rtol * abs(b)`;
any missing side (NaN) compares as not close. -/
def isclose (rtol atol : ℤ) (a b : Option ℤ) : Bool :=
  match a, b with
  | some x, some y => |x - y| ≤ atol + rtol * |y| 
  | _, _ => false

/-- Embedding of `IamDataFrame._exclude_on_fail`: set `exclude=True` in meta for the
given scenario keys. -/
def excludeOnFail (df : IamDataFrame) (keys : List (String × String)) :
    IamDataFrame :=
  { df with meta := { cols := df.meta.cols
                      rows := df.meta.rows.map (fun mr =>
                        if keys.contains mr.key then
                          setMetaVal df.meta.cols "exclude" (.b true) mr
                        else mr) } }

/-- The scenario keys of the mismatched aligned entries
(`_meta_idx(df_var[rows].reset_index())`). -/
def mismScens (mism : List (LongIdx × Option ℤ × Option ℤ)) :
    List (String × String) :=
  firstDedup (mism.map (fun e => (e.1.1, e.1.2.1)))

/-- Embedding of `IamDataFrame.check_aggregate`: compare the existing top-level rows of
`v` with the component aggregate via outer alignment and `np.isclose`.
Returns the mismatch report (`none` when nothing mismatches or no
components exist) together with the resulting container (whose meta is
updated when `exclude_on_fail` is set and mismatches exist). -/
def check_aggregate (df : IamDataFrame) (v : String) (exclude_on_fail : Bool)
    (multiplier rtol atol : ℤ) :
    Option (List (LongIdx × Option ℤ × Option ℤ)) × IamDataFrame :=
  match aggregateVar df v with
  | none => (none, df)
  | some agg =>
    let aligned := alignOuter (varSeries df v) agg
    let mism := aligned.filter (fun e =>
      !isclose rtol atol e.2.1 (e.2.2.map (fun q => multiplier * q)))
    if mism.isEmpty then (none, df)
    else (some mism,
      if exclude_on_fail then excludeOnFail df (mismScens mism) else df)

/-- The effective per-row action of a single-column rename `aa → bb` on a
column with accessor `get` and updater `set`: rows selected by the filter
and equal to the old value are rewritten, all others kept. -/
def substCol (get : Row → String) (set : String → Row → Row)
    (aa bb : String) (r : Row) : Row :=
  if (matchStr false [aa] (get r) && (get r == aa)) = true then set bb r
  else r

/-- The string value of data-dimension column `col` of a row: one of the
five IAMC index columns, or an extra column read positionally. -/
def colValD (df : IamDataFrame) (col : String) (r : Row) : String :=
  if col == "model" then r.model
  else if col == "scenario" then r.scenario
  else if col == "region" then r.region
  else if col == "variable" then r.«variable»
  else if col == "unit" then r.unit
  else match colIdx df.extra_cols col with
    | some i => r.extra.getD i ""
    | none => ""

/-- The meta table written back by a successful `model`/`scenario` rename
step: rows whose scenario key is among the selected data keys get the
mapping applied to the index column, expressed through an abstract
accessor/updater pair on meta rows. -/
def renameIdxMeta (mget : MetaRow → String)
    (mset : String → MetaRow → MetaRow) (sel : List (String × String))
    (aa bb : String) (meta : Meta) : Meta :=
  { meta with rows := meta.rows.map (fun mr =>
      if sel.contains mr.key then mset (replaceVal [(aa, bb)] (mget mr)) mr
      else mr) }

/-! ## Concrete example containers -/

/-- A year-mode time value. -/
def yearT (n : Int) : PyTime := ⟨n, 0, 0, 0⟩

/-- A year-mode data row with no extra columns. -/
def mkRow (m s reg v u : String) (yr : Int) (val : ℤ) : Row :=
  ⟨m, s, reg, v, u, yearT yr, [], val⟩

/-- A meta table with the mandatory `exclude` column for one scenario. -/
def exMeta : Meta := ⟨["exclude"], [⟨"M", "S", [.b false]⟩]⟩

/-- Example container for the aggregation-check claims: the 2010 top-level
row of `A` equals its component sum, while the 2020 top-level row has no
components at all. -/
def exDf1 : IamDataFrame :=
  ⟨[mkRow "M" "S" "R" "A" "U" 2010 5,
    mkRow "M" "S" "R" "A|x" "U" 2010 5,
    mkRow "M" "S" "R" "A" "U" 2020 7], "year", [], exMeta⟩

/-- The component aggregate of `A` in `exDf1`. -/
def exAgg1 : List (LongIdx × ℤ) :=
  [(("M", "S", "R", "A", "U", yearT 2010, []), 5)]

/-- Example container for the rename round-trip counterexample: the target
region value `Rb` already occurs in a row that differs in `variable`. -/
def exDf4 : IamDataFrame :=
  ⟨[mkRow "M" "S" "Ra" "V1" "U" 2010 1,
    mkRow "M" "S" "Rb" "V2" "U" 2010 2], "year", [], exMeta⟩

/-- Example container for the rename round-trip witness: the target region
value `Rb` occurs nowhere. -/
def exDf4g : IamDataFrame :=
  ⟨[mkRow "M" "S" "Ra" "V1" "U" 2010 1,
    mkRow "M" "S" "Rc" "V2" "U" 2010 2], "year", [], exMeta⟩

/-- Example container for the rename merge-by-sum witness: two rows collide
after renaming region `R2` to `R1`. -/
def exDf3 : IamDataFrame :=
  ⟨[mkRow "M" "S" "R1" "V" "U" 2010 1,
    mkRow "M" "S" "R2" "V" "U" 2010 2], "year", [], exMeta⟩

/-- Meta table of the append example: column `c` holds `1` and `2`. -/
def exMetaA : Meta :=
  ⟨["exclude", "c"],
   [⟨"M1", "S1", [.b false, .s "1"]⟩, ⟨"M2", "S2", [.b false, .s "2"]⟩]⟩

/-- Meta table of the appended container: agrees with `exMetaA` on
`(M1, S1)` but differs on `(M2, S2)`. -/
def exMetaB : Meta :=
  ⟨["exclude", "c"],
   [⟨"M1", "S1", [.b false, .s "1"]⟩, ⟨"M2", "S2", [.b false, .s "3"]⟩]⟩

/-- The base container of the append example. -/
def exDfA5 : IamDataFrame :=
  ⟨[mkRow "M1" "S1" "R" "VA" "U" 2010 1,
    mkRow "M2" "S2" "R" "VA" "U" 2010 1], "year", [], exMetaA⟩

/-- The appended container with one conflicting meta value. -/
def exDfB5 : IamDataFrame :=
  ⟨[mkRow "M1" "S1" "R" "VB" "U" 2010 1,
    mkRow "M2" "S2" "R" "VB" "U" 2010 1], "year", [], exMetaB⟩

/-- The appended container with fully agreeing meta values. -/
def exDfB5e : IamDataFrame :=
  ⟨[mkRow "M1" "S1" "R" "VB" "U" 2010 1,
    mkRow "M2" "S2" "R" "VB" "U" 2010 1], "year", [], exMetaA⟩

/-- Example container for the filter claims: one row with a depth-1
variable. -/
def exDf10 : IamDataFrame :=
  ⟨[mkRow "M" "S" "R" "A|x" "U" 2010 1], "year", [], exMeta⟩

/-! ## Lemmas about the list helpers -/

theorem mem_dropDupsBy {α β : Type} [DecidableEq β] (f : α → β)
    (seen : List β) (l : List α) (x : α) (h : x ∈ dropDupsBy f seen l) :
    x ∈ l := by
  induction l generalizing seen with
  | nil => simp [dropDupsBy] at h
  | cons a as ih =>
    simp only [dropDupsBy] at h
    split at h
    · exact List.mem_cons_of_mem a (ih _ h)
    · rcases List.mem_cons.mp h with h' | h'
      · exact h' ▸ List.mem_cons_self a as
      · exact List.mem_cons_of_mem a (ih _ h')

theorem mem_firstDedup {α : Type} [DecidableEq α] (l : List α) (x : α) :
    x ∈ firstDedup l ↔ x ∈ l := by
  have key : ∀ (seen : List α), x ∉ seen →
      (x ∈ dropDupsBy id seen l ↔ x ∈ l ∧ x ∉ seen) := by
    induction l with
    | nil => intro seen _; simp [dropDupsBy]
    | cons a as ih =>
      intro seen hx
      simp only [dropDupsBy, id_eq]
      split
      · rename_i ha
        constructor
        · intro h
          have hxas := (ih seen hx).mp h
          exact ⟨List.mem_cons_of_mem a hxas.1, hxas.2⟩
        · intro ⟨h1, h2⟩
          rcases List.mem_cons.mp h1 with h' | h'
          · exact absurd (h' ▸ ha) (h' ▸ h2)
          · exact (ih seen hx).mpr ⟨h', h2⟩
      · by_cases hxa : x = a
        · subst hxa; simp [hx]
        · constructor
          · intro h
            rcases List.mem_cons.mp h with h' | h'
            · exact absurd h' hxa
            · have := (ih (a :: seen) (by simp [hxa, hx])).mp h'
              exact ⟨List.mem_cons_of_mem a this.1, hx⟩
          · intro ⟨h1, _⟩
            rcases List.mem_cons.mp h1 with h' | h'
            · exact absurd h' hxa
            · exact List.mem_cons_of_mem a
                ((ih (a :: seen) (by simp [hxa, hx])).mpr
                  ⟨h', by simp [hxa, hx]⟩)
  unfold firstDedup
  rw [key [] (List.not_mem_nil x)]
  simp

theorem dropDupsBy_eq_self {α β : Type} [DecidableEq β] (f : α → β)
    (seen : List β) (l : List α) (hn : (l.map f).Nodup)
    (hs : ∀ x ∈ l, f x ∉ seen) : dropDupsBy f seen l = l := by
  induction l generalizing seen with
  | nil => rfl
  | cons a as ih =>
    simp only [List.map_cons, List.nodup_cons] at hn
    simp only [dropDupsBy]
    rw [if_neg (hs a (List.mem_cons_self a as))]
    congr 1
    refine ih (f a :: seen) hn.2 (fun x hx => ?_)
    intro hmem
    rcases List.mem_cons.mp hmem with h' | h'
    · exact hn.1 (h' ▸ List.mem_map_of_mem f hx)
    · exact hs x (List.mem_cons_of_mem a hx) h'

theorem firstDedup_eq_self {α : Type} [DecidableEq α] (l : List α)
    (hn : l.Nodup) : firstDedup l = l := by
  unfold firstDedup
  exact dropDupsBy_eq_self id [] l (by simpa using hn) (by simp)

theorem dupElems_eq_nil {α : Type} [DecidableEq α] (seen : List α)
    (l : List α) (hn : l.Nodup) (hs : ∀ x ∈ l, x ∉ seen) :
    dupElems seen l = [] := by
  induction l generalizing seen with
  | nil => rfl
  | cons a as ih =>
    simp only [List.nodup_cons] at hn
    simp only [dupElems]
    rw [if_neg (hs a (List.mem_cons_self a as))]
    refine ih (a :: seen) hn.2 (fun x hx => ?_)
    intro hmem
    rcases List.mem_cons.mp hmem with h' | h'
    · exact hn.1 (h' ▸ hx)
    · exact hs x (List.mem_cons_of_mem a hx) h'

theorem firstDedup_cons_ne_nil {α : Type} [DecidableEq α] (a : α)
    (l : List α) : firstDedup (a :: l) ≠ [] := by
  simp [firstDedup, dropDupsBy]

theorem selectMask_map {α : Type} (l : List α) (p : α → Bool) (g : α → α) :
    selectMask (l.map g) (l.map p) = (l.filter p).map g := by
  induction l with
  | nil => rfl
  | cons a as ih =>
    simp only [List.map_cons, selectMask, List.filter_cons]
    by_cases h : p a
    · simp [h, ih]
    · simp [h, ih]

theorem selectMask_map_self {α : Type} (l : List α) (p : α → Bool) :
    selectMask l (l.map p) = l.filter p := by
  have := selectMask_map l p id
  simpa using this

theorem selectMask_map_not {α : Type} (l : List α) (p : α → Bool)
    (g : α → α) :
    selectMask (l.map g) ((l.map p).map (fun b => !b))
      = (l.filter (fun x => !p x)).map g := by
  rw [List.map_map]
  exact selectMask_map l (fun x => !p x) g

theorem selectMask_map_not_self {α : Type} (l : List α) (p : α → Bool) :
    selectMask l ((l.map p).map (fun b => !b)) = l.filter (fun x => !p x) := by
  have := selectMask_map_not l p id
  simpa using this

theorem zipWith_if_map {α : Type} (l : List α) (p : α → Bool) (g : α → α) :
    List.zipWith (fun r b => if b then g r else r) l (l.map p)
      = l.map (fun r => if p r then g r else r) := by
  induction l with
  | nil => rfl
  | cons a as ih => simp [List.zipWith, ih]

theorem zipWith_if_map2 {α : Type} (l : List α) (p : α → Bool)
    (g h : α → α) :
    List.zipWith (fun r b => if b then g r else r) (l.map h) (l.map p)
      = l.map (fun r => if p r then g (h r) else h r) := by
  induction l with
  | nil => rfl
  | cons a as ih => simp [List.zipWith, ih]

theorem rowOfIdx_longIdx (k : LongIdx) (v : ℤ) :
    (rowOfIdx k v).longIdx = k := rfl

theorem rowOfIdx_value (k : LongIdx) (v : ℤ) : (rowOfIdx k v).value = v := rfl

theorem rowOfIdx_self (r : Row) : rowOfIdx r.longIdx r.value = r := rfl

/-! ## Lemmas about group-and-sum -/

theorem filter_longIdx_singleton (l : List Row)
    (hn : (l.map Row.longIdx).Nodup) (r : Row) (hr : r ∈ l) :
    l.filter (fun x => x.longIdx == r.longIdx) = [r] := by
  induction l with
  | nil => simp at hr
  | cons a as ih =>
    simp only [List.map_cons, List.nodup_cons] at hn
    rcases List.mem_cons.mp hr with h' | h'
    · subst h'
      rw [List.filter_cons_of_pos (by simp)]
      have hnil : as.filter (fun x => x.longIdx == r.longIdx) = [] := by
        rw [List.filter_eq_nil_iff]
        intro x hx hbeq
        have hEq : x.longIdx = r.longIdx := beq_iff_eq.mp hbeq
        exact hn.1 (hEq ▸ List.mem_map_of_mem Row.longIdx hx)
      rw [hnil]
    · have hne : ¬(a.longIdx == r.longIdx) = true := by
        rw [beq_iff_eq]
        intro hEq
        exact hn.1 (hEq.symm ▸ List.mem_map_of_mem Row.longIdx h')
      rw [List.filter_cons_of_neg (by simpa using hne)]
      exact ih hn.2 h'

theorem sumAt_of_unique (l : List Row) (hn : (l.map Row.longIdx).Nodup)
    (r : Row) (hr : r ∈ l) : sumAt l r.longIdx = r.value := by
  unfold sumAt
  rw [filter_longIdx_singleton l hn r hr]
  simp

theorem groupBySum_eq_self (l : List Row)
    (hn : (l.map Row.longIdx).Nodup) : groupBySum l = l := by
  unfold groupBySum
  rw [firstDedup_eq_self _ hn, List.map_map]
  have h2 : ∀ r ∈ l, ((fun k => rowOfIdx k (sumAt l k)) ∘ Row.longIdx) r = id r := by
    intro r hr
    simp only [Function.comp_apply, id_eq]
    rw [sumAt_of_unique l hn r hr, rowOfIdx_self]
  rw [List.map_congr_left h2, List.map_id]

theorem mem_groupBySum (l : List Row) (x : Row) :
    x ∈ groupBySum l ↔ ∃ r ∈ l, x = rowOfIdx r.longIdx (sumAt l r.longIdx) := by
  unfold groupBySum
  rw [List.mem_map]
  constructor
  · intro ⟨k, hk, hx⟩
    have hk' := (mem_firstDedup _ _).mp hk
    rcases List.mem_map.mp hk' with ⟨r, hr, hkr⟩
    exact ⟨r, hr, by rw [← hx, hkr]⟩
  · intro ⟨r, hr, hx⟩
    refine ⟨r.longIdx, (mem_firstDedup _ _).mpr (List.mem_map_of_mem _ hr), hx.symm⟩

/-! ## Lemmas about pattern matching -/

theorem globList_self (p : List Char) : globList p p = true := by
  induction p with
  | nil => rfl
  | cons c ps ih =>
    by_cases hc : (c == '*') = true
    · simp only [globList]
      rw [if_pos hc, List.any_eq_true]
      refine ⟨1, List.mem_range.mpr (by simp), ?_⟩
      have hdrop : (c :: ps).drop 1 = ps := rfl
      rw [hdrop]
      exact ih
    · simp only [globList]
      rw [if_neg hc]
      simp [ih]

theorem matchStr_self (s : String) : matchStr false [s] s = true := by
  simp [matchStr, globList_self]

/-! ## Lemmas about the filter engine -/

theorem filterB_ok_char (df : IamDataFrame) (spec : FilterSpec) (keep : Bool)
    (df' : IamDataFrame) (h : filterB df spec keep = .ok df') :
    df'.data = df.data.filter (fun r => rowKeep df spec r == keep)
      ∧ df'.meta = metaLoc df.meta
          (firstDedup (df'.data.map (fun r => (r.model, r.scenario))))
      ∧ df'.time_col = df.time_col ∧ df'.extra_cols = df.extra_cols := by
  unfold filterB applyFilters at h
  cases hc : checkFilterKeys df spec with
  | error e => rw [hc] at h; exact absurd h (by simp)
  | ok u =>
    rw [hc] at h
    simp only [Except.ok.injEq] at h
    subst h
    cases keep with
    | true =>
      refine ⟨?_, rfl, rfl, rfl⟩
      simp only [if_pos]
      rw [selectMask_map_self]
      exact List.filter_congr (fun x _ => by cases h : rowKeep df spec x <;> simp [h])
    | false =>
      refine ⟨?_, rfl, rfl, rfl⟩
      rw [if_neg (by simp)]
      rw [selectMask_map_not_self]
      show df.data.filter (fun x => !rowKeep df spec x)
        = df.data.filter (fun r => rowKeep df spec r == false)
      exact List.filter_congr (fun x _ => by cases h : rowKeep df spec x <;> simp [h])

theorem mem_metaKeys_metaLoc (m : Meta) (keys : List (String × String))
    (k : String × String) :
    k ∈ metaKeys (metaLoc m keys) ↔ k ∈ keys ∧ k ∈ metaKeys m := by
  unfold metaKeys metaLoc
  simp only [List.mem_map, List.mem_filterMap]
  constructor
  · rintro ⟨mr, ⟨k', hk', hfind⟩, hkey⟩
    have hp := List.find?_some hfind
    have hmem : mr ∈ m.rows := List.mem_of_find?_eq_some hfind
    simp only [Bool.and_eq_true, beq_iff_eq] at hp
    have hkk : mr.key = k' := by
      simp [MetaRow.key, hp.1, hp.2]
    rw [hkk] at hkey
    subst hkey
    exact ⟨hk', ⟨mr, hmem, hkk⟩⟩
  · rintro ⟨hk, mr, hmr, hkey⟩
    have hsome : (m.rows.find?
        (fun x => x.model == k.1 && x.scenario == k.2)).isSome := by
      rw [List.find?_isSome]
      refine ⟨mr, hmr, ?_⟩
      simp [← hkey, MetaRow.key]
    rcases Option.isSome_iff_exists.mp hsome with ⟨a, ha⟩
    have hpa := List.find?_some ha
    simp only [Bool.and_eq_true, beq_iff_eq] at hpa
    refine ⟨a, ⟨k, hk, ha⟩, ?_⟩
    simp [MetaRow.key, hpa.1, hpa.2]

/-! ## Claim theorems: filter engine -/

/-- C2: for every container and filter specification whose keys are
accepted, `filter(spec, keep=True)` and `filter(spec, keep=False)` partition
the row set exactly: their union is the original row set and no row lies in
both (the combined mask is the AND of the per-dimension sub-masks and
`keep=False` selects its complement). -/
theorem c2_filter_partition (df : IamDataFrame) (spec : FilterSpec)
    (h : checkFilterKeys df spec = .ok ()) :
    ∃ dfT dfF, filterB df spec true = .ok dfT
      ∧ filterB df spec false = .ok dfF
      ∧ ∀ r : Row, (r ∈ df.data ↔ r ∈ dfT.data ∨ r ∈ dfF.data)
          ∧ ¬(r ∈ dfT.data ∧ r ∈ dfF.data) := by
  have hT : ∃ dfT, filterB df spec true = .ok dfT := by
    unfold filterB applyFilters
    rw [h]
    exact ⟨_, rfl⟩
  have hF : ∃ dfF, filterB df spec false = .ok dfF := by
    unfold filterB applyFilters
    rw [h]
    exact ⟨_, rfl⟩
  obtain ⟨dfT, hT⟩ := hT
  obtain ⟨dfF, hF⟩ := hF
  obtain ⟨hdT, _, _, _⟩ := filterB_ok_char df spec true dfT hT
  obtain ⟨hdF, _, _, _⟩ := filterB_ok_char df spec false dfF hF
  refine ⟨dfT, dfF, hT, hF, fun r => ?_⟩
  rw [hdT, hdF]
  constructor
  · constructor
    · intro hr
      cases hp : rowKeep df spec r with
      | true => exact Or.inl (List.mem_filter.mpr ⟨hr, by simp [hp]⟩)
      | false => exact Or.inr (List.mem_filter.mpr ⟨hr, by simp [hp]⟩)
    · intro hr
      rcases hr with hr | hr
      · exact (List.mem_filter.mp hr).1
      · exact (List.mem_filter.mp hr).1
  · intro ⟨h1, h2⟩
    have e1 := (List.mem_filter.mp h1).2
    have e2 := (List.mem_filter.mp h2).2
    simp only [beq_iff_eq] at e1 e2
    rw [e1] at e2
    exact absurd e2 (by simp)

/-- C2 witness: the partition property at a concrete container and filter. -/
theorem c2_filter_partition_witness :
    ∃ dfT dfF, filterB exDf1 [("region", some (.strs ["R"]))] true = .ok dfT
      ∧ filterB exDf1 [("region", some (.strs ["R"]))] false = .ok dfF
      ∧ ∀ r : Row, (r ∈ exDf1.data ↔ r ∈ dfT.data ∨ r ∈ dfF.data)
          ∧ ¬(r ∈ dfT.data ∧ r ∈ dfF.data) :=
  c2_filter_partition exDf1 [("region", some (.strs ["R"]))] (by rfl)

/-- C7: after every successful filter call the resulting meta index equals
exactly the set of scenario keys still present in the surviving data rows
(given the invariant that every data key has a meta row); in particular an
empty filter result leaves the meta table empty rather than stale, and is
not an error. -/
theorem c7_filter_meta_consistent (df : IamDataFrame) (spec : FilterSpec)
    (keep : Bool) (df' : IamDataFrame)
    (h : filterB df spec keep = .ok df')
    (hinv : ∀ r ∈ df.data, (r.model, r.scenario) ∈ metaKeys df.meta) :
    ∀ k, k ∈ metaKeys df'.meta ↔ ∃ r ∈ df'.data, (r.model, r.scenario) = k := by
  obtain ⟨hdata, hmeta, _, _⟩ := filterB_ok_char df spec keep df' h
  intro k
  rw [hmeta, mem_metaKeys_metaLoc, mem_firstDedup]
  constructor
  · rintro ⟨hk, _⟩
    rcases List.mem_map.mp hk with ⟨r, hr, hkr⟩
    exact ⟨r, hr, hkr⟩
  · rintro ⟨r, hr, hkr⟩
    refine ⟨List.mem_map.mpr ⟨r, hr, hkr⟩, ?_⟩
    have hrd : r ∈ df.data := by
      rw [hdata] at hr
      exact (List.mem_filter.mp hr).1
    exact hkr ▸ hinv r hrd

/-- C7 witness: the meta-consistency property at a concrete filtered
container (a filter that empties the container, whose meta then also
empties). -/
theorem c7_filter_meta_consistent_witness :
    ∃ df', filterB exDf1 [("region", some (.strs ["nowhere"]))] true = .ok df'
      ∧ ∀ k, k ∈ metaKeys df'.meta
          ↔ ∃ r ∈ df'.data, (r.model, r.scenario) = k :=
  ⟨_, rfl, c7_filter_meta_consistent exDf1 [("region", some (.strs ["nowhere"]))]
    true _ rfl (by decide)⟩

/-- C9: `filter` rejects every non-boolean `keep` argument with a
`ValueError` raised before any filter predicate is evaluated (the spec even
with unknown keys never reaches the unsupported-key error), and the pure
result carries no modified container. -/
theorem c9_filter_keep_not_bool (df : IamDataFrame) (spec : FilterSpec)
    (k : PyVal) (hk : ∀ b, k ≠ .pyBool b) :
    filterTop df k spec = .error .keepNotBool := by
  cases k with
  | pyBool b => exact absurd rfl (hk b)
  | pyInt n => rfl
  | pyStr s => rfl

/-- C9 witness: `keep=0` is rejected even though the spec also contains an
unknown key, showing the check precedes filter evaluation. -/
theorem c9_filter_keep_not_bool_witness :
    (∀ b, PyVal.pyInt 0 ≠ PyVal.pyBool b)
      ∧ filterTop exDf1 (.pyInt 0) [("junk", some (.strs ["x"]))]
          = .error .keepNotBool :=
  ⟨(by intro b h; cases h),
   c9_filter_keep_not_bool exDf1 [("junk", some (.strs ["x"]))] (.pyInt 0)
     (by intro b h; cases h)⟩

/-- C8 counterexample: the claim's list of recognized filter keys omits
`value`, yet `value` is a data column and `_apply_filters` accepts it
without error, so a spec with the key `value` does not fail. -/
theorem c8_counterexample :
    applyFilters exDf1 [("value", some (.nums [5]))] = .ok [true, true, false]
      ∧ exDf1.meta.cols.contains "value" = false
      ∧ (["model", "scenario", "region", "variable", "unit", "year",
          "level"] ++ exDf1.extra_cols).contains "value" = false := by
  refine ⟨by rfl, by rfl, by rfl⟩

/-- C8 (amended): a filter specification containing a non-`None` entry
whose key is neither the popped `regexp` option nor recognized by any
dispatch branch (a meta column; `variable`, `year`, `level`; `month`,
`day`, `hour`, `time` in datetime mode; or a data column — `model`,
`scenario`, `region`, `variable`, `unit`, the time column, an extra column
or `value`) makes `filter` fail with the unsupported-filter `ValueError`,
naming an unrecognized key. -/
theorem c8_unknown_filter_key (df : IamDataFrame) (spec : FilterSpec)
    (h : ∃ e ∈ spec, e.2.isSome ∧ ¬e.1 = "regexp"
      ∧ recognized df e.1 = false) :
    ∃ c, applyFilters df spec = .error (.unsupported c)
      ∧ recognized df c = false := by
  have key : ∀ sp : FilterSpec, (∃ e ∈ sp, e.2.isSome ∧ ¬e.1 = "regexp"
      ∧ recognized df e.1 = false) →
      ∃ c, checkFilterKeys df sp = .error (.unsupported c)
        ∧ recognized df c = false := by
    intro sp
    induction sp with
    | nil => intro ⟨e, he, _⟩; simp at he
    | cons a rest ih =>
      intro ⟨e, he, hsome, hreg, hrec⟩
      rcases List.mem_cons.mp he with he' | he'
      · subst he'
        simp only [checkFilterKeys]
        have hc1 : ¬(e.1 == "regexp" || e.2.isNone) = true := by
          simp only [Bool.or_eq_true, beq_iff_eq, Option.isNone_iff_eq_none]
          rintro (hx | hx)
          · exact hreg hx
          · rw [hx] at hsome
            simp at hsome
        rw [if_neg hc1]
        rw [if_neg (by simp [hrec])]
        exact ⟨e.1, rfl, hrec⟩
      · simp only [checkFilterKeys]
        by_cases h1 : (a.1 == "regexp" || a.2.isNone) = true
        · rw [if_pos h1]
          exact ih ⟨e, he', hsome, hreg, hrec⟩
        · rw [if_neg h1]
          by_cases h2 : recognized df a.1 = true
          · rw [if_pos h2]
            exact ih ⟨e, he', hsome, hreg, hrec⟩
          · rw [if_neg h2]
            exact ⟨a.1, rfl, by simpa using h2⟩
  obtain ⟨c, hc, hrec⟩ := key spec h
  refine ⟨c, ?_, hrec⟩
  unfold applyFilters
  rw [hc]

/-- C8 witness: a concrete unknown key (`junk`) fails with the
unsupported-filter error. -/
theorem c8_unknown_filter_key_witness :
    ∃ c, applyFilters exDf1 [("junk", some (.strs ["x"]))]
        = .error (.unsupported c)
      ∧ recognized exDf1 c = false :=
  c8_unknown_filter_key exDf1 [("junk", some (.strs ["x"]))]
    ⟨("junk", some (.strs ["x"])), by decide, by decide, by decide, by rfl⟩

theorem all_congr_mem {α : Type} {p q : α → Bool} :
    ∀ l : List α, (∀ a ∈ l, p a = q a) → l.all p = l.all q
  | [], _ => rfl
  | a :: as, h => by
    simp only [List.all_cons]
    rw [h a (List.mem_cons_self a as),
      all_congr_mem as (fun x hx => h x (List.mem_cons_of_mem a hx))]

theorem specLookup_append_none (spec : FilterSpec) (c x : String) :
    specLookup (spec ++ [(c, none)]) x = specLookup spec x := by
  induction spec with
  | nil =>
    simp only [List.nil_append, specLookup, List.find?]
    by_cases h : (c == x) = true
    · simp [h]
    · simp [h]
  | cons a rest ih =>
    simp only [List.cons_append, specLookup, List.find?_cons]
    by_cases h : (a.1 == x) = true
    · simp [h]
    · simp only [h]
      exact ih

theorem regexpFlag_append_none (spec : FilterSpec) (c : String) :
    regexpFlag (spec ++ [(c, none)]) = regexpFlag spec := by
  unfold regexpFlag
  rw [specLookup_append_none]

theorem specHasKey_append_none (spec : FilterSpec) (c x : String) :
    specHasKey (spec ++ [(c, none)]) x = (specHasKey spec x || (c == x)) := by
  unfold specHasKey
  rw [List.any_append]
  simp

theorem checkFilterKeys_append_none (df : IamDataFrame) (spec : FilterSpec)
    (c : String) :
    checkFilterKeys df (spec ++ [(c, none)]) = checkFilterKeys df spec := by
  induction spec with
  | nil =>
    simp only [List.nil_append, checkFilterKeys]
    rw [if_pos (by simp)]
  | cons a rest ih =>
    simp only [List.cons_append, checkFilterKeys, List.append_eq]
    by_cases h1 : (a.1 == "regexp" || a.2.isNone) = true
    · rw [if_pos h1, if_pos h1, ih]
    · rw [if_neg h1, if_neg h1]
      by_cases h2 : recognized df a.1 = true
      · rw [if_pos h2, if_pos h2, ih]
      · rw [if_neg h2, if_neg h2]

theorem rowKeep1_congr (df : IamDataFrame) (s1 s2 : FilterSpec) (rx : Bool)
    (col : String) (v : FilterVal) (r : Row)
    (h1 : specLookup s1 "level" = specLookup s2 "level")
    (h2 : col = "level" → specHasKey s1 "variable" = specHasKey s2 "variable") :
    rowKeep1 df s1 rx col v r = rowKeep1 df s2 rx col v r := by
  unfold rowKeep1
  rw [h1]
  by_cases hcl : col = "level"
  · rw [h2 hcl]
  · have hb : (col == "level") = false := by simp [hcl]
    simp only [hb, Bool.false_eq_true, if_false]

theorem rowKeep_append_none (df : IamDataFrame) (spec : FilterSpec)
    (c : String) (r : Row)
    (hc : c = "variable" → specHasKey spec "level" = false
      ∨ specHasKey spec "variable" = true) :
    rowKeep df (spec ++ [(c, none)]) r = rowKeep df spec r := by
  unfold rowKeep
  rw [List.all_append]
  have hone : List.all [(c, (none : Option FilterVal))] (fun e =>
      if e.1 == "regexp" then true
      else match e.2 with
        | none => true
        | some v => rowKeep1 df (spec ++ [(c, none)])
            (regexpFlag (spec ++ [(c, none)])) e.1 v r) = true := by
    simp only [List.all_cons, List.all_nil, Bool.and_true]
    by_cases h : (c == "regexp") = true
    · simp [h]
    · simp [h]
  rw [hone, Bool.and_true]
  refine all_congr_mem spec (fun e he => ?_)
  by_cases h1 : (e.1 == "regexp") = true
  · simp [h1]
  · simp only [h1, Bool.false_eq_true, if_false]
    cases hv : e.2 with
    | none => rfl
    | some v =>
      rw [regexpFlag_append_none]
      refine rowKeep1_congr df _ _ _ _ _ _ (specLookup_append_none spec c "level")
        (fun hlv => ?_)
      rw [specHasKey_append_none]
      by_cases hcv : (c == "variable") = true
      · rcases hc (beq_iff_eq.mp hcv) with h | h
        · exfalso
          have : specHasKey spec "level" = true := by
            unfold specHasKey
            rw [List.any_eq_true]
            exact ⟨e, he, by simp [hlv]⟩
          rw [this] at h
          exact absurd h (by simp)
        · simp [h]
      · simp [hcv]

/-! ## Claim theorems: `None`-valued filters (C10) -/

/-- C10 counterexample: on a container whose only row has variable `A|x`
(depth 1), the standalone filter `level=[0]` drops the row, but adding
`variable=None` to the same specification disables the level filter and
keeps the row — so a `None`-valued entry can change the mask. -/
theorem c10_counterexample :
    applyFilters exDf10 [("level", some (.ints [0]))] = .ok [false]
      ∧ applyFilters exDf10 [("level", some (.ints [0])), ("variable", none)]
          = .ok [true] :=
  ⟨rfl, rfl⟩

/-- C10 (amended): a filter dimension given the value `None` imposes no
constraint and never changes the resulting mask — except that adding
`variable=None` to a specification that has a `level` filter but no
`variable` key disables the standalone level filter, because the level
handler defers to the variable handler whenever the key `variable` is
present, even with value `None`.  `filter(col=None)` alone keeps every data
row. -/
theorem c10_none_filter (df : IamDataFrame) (spec : FilterSpec) (c : String)
    (hc : c = "variable" → specHasKey spec "level" = false
      ∨ specHasKey spec "variable" = true) :
    applyFilters df (spec ++ [(c, none)]) = applyFilters df spec
      ∧ ∃ df', filterB df [(c, none)] true = .ok df' ∧ df'.data = df.data := by
  constructor
  · unfold applyFilters
    rw [checkFilterKeys_append_none]
    cases hck : checkFilterKeys df spec with
    | error e => rfl
    | ok u =>
      show (Except.ok (df.data.map (rowKeep df (spec ++ [(c, none)])))
          : Except FilterError (List Bool))
        = Except.ok (df.data.map (rowKeep df spec))
      rw [List.map_congr_left (fun r _ => rowKeep_append_none df spec c r hc)]
  · have hkeys : checkFilterKeys df [(c, none)] = .ok () := by
      simp [checkFilterKeys]
    have hex : ∃ df', filterB df [(c, none)] true = .ok df' := by
      unfold filterB applyFilters
      rw [hkeys]
      exact ⟨_, rfl⟩
    obtain ⟨df', hdf'⟩ := hex
    obtain ⟨hdata, _, _, _⟩ := filterB_ok_char df [(c, none)] true df' hdf'
    refine ⟨df', hdf', ?_⟩
    rw [hdata]
    rw [List.filter_eq_self]
    intro r _
    have hrow : rowKeep df [(c, none)] r = true := by
      unfold rowKeep
      simp only [List.all_cons, List.all_nil, Bool.and_true]
      by_cases h : (c == "regexp") = true
      · simp [h]
      · simp [h]
    simp [hrow]

/-- C10 witness: adding `region=None` to a year filter leaves the mask
unchanged, and filtering by `region=None` alone keeps every row. -/
theorem c10_none_filter_witness :
    applyFilters exDf1 ([("year", some (.ints [2010]))] ++ [("region", none)])
        = applyFilters exDf1 [("year", some (.ints [2010]))]
      ∧ ∃ df', filterB exDf1 [("region", none)] true = .ok df'
          ∧ df'.data = exDf1.data :=
  c10_none_filter exDf1 [("year", some (.ints [2010]))] "region"
    (by intro h; exact absurd h (by decide))

/-! ## Claim theorems: rename engine -/

/-- C6: a rename call whose mapping names both an index dimension (`model`
or `scenario`) and any data dimension (`region`, `variable`, `unit`, the
time column or an extra column) fails with the conflicting-rename
`ValueError`, before any renaming is applied. -/
theorem c6_rename_index_and_data (df : IamDataFrame)
    (mapping : RenameMapping) (check_duplicates : Bool)
    (h1 : mapping.any (fun e => e.1 == "model" || e.1 == "scenario") = true)
    (h2 : mapping.any (fun e => (dataCols df).contains e.1) = true) :
    rename df mapping check_duplicates = .error .indexAndData := by
  unfold rename
  rw [if_pos (by rw [h1, h2]; rfl)]

/-- C6 witness: renaming `model` and `region` in one call fails. -/
theorem c6_rename_index_and_data_witness :
    rename exDf3 [("model", [("M", "M2")]), ("region", [("R1", "R9")])] true
      = .error .indexAndData :=
  c6_rename_index_and_data exDf3
    [("model", [("M", "M2")]), ("region", [("R1", "R9")])] true
    (by rfl) (by rfl)

theorem rename_ok_char (df : IamDataFrame) (mapping : RenameMapping)
    (cd : Bool) (df' : IamDataFrame) (h : rename df mapping cd = .ok df') :
    ∃ mask, applyFilters df (renameFilters mapping) = .ok mask
      ∧ df'.data = groupBySum (renamedData df mapping mask) := by
  unfold rename at h
  split at h
  · exact absurd h (by simp)
  · split at h
    · exact absurd h (by simp)
    · rename_i mask ha
      split at h
      · exact absurd h (by simp)
      · split at h
        · exact absurd h (by simp)
        · simp only [Except.ok.injEq] at h
          exact ⟨mask, ha, by rw [← h]⟩

/-- C3: for every completing rename with `append=False`, the resulting data
table is the grouped-sum merge of the partially renamed rows over the full
long index: every result row's value is the sum of the renamed rows sharing
its long-index tuple (the reduction is always additive sum — `rename` takes
no aggregation-method argument), rows with a unique tuple survive
unchanged, and every renamed tuple is represented. -/
theorem c3_rename_merges_by_sum (df : IamDataFrame) (mapping : RenameMapping)
    (cd : Bool) (df' : IamDataFrame) (h : rename df mapping cd = .ok df') :
    ∃ mask, applyFilters df (renameFilters mapping) = .ok mask
      ∧ (∀ r' ∈ df'.data,
          r'.value = sumAt (renamedData df mapping mask) r'.longIdx)
      ∧ (∀ r ∈ renamedData df mapping mask,
          (renamedData df mapping mask).filter
              (fun x => x.longIdx == r.longIdx) = [r]
            → r ∈ df'.data)
      ∧ (∀ r ∈ renamedData df mapping mask,
          ∃ r' ∈ df'.data, r'.longIdx = r.longIdx) := by
  obtain ⟨mask, ha, hdata⟩ := rename_ok_char df mapping cd df' h
  refine ⟨mask, ha, ?_, ?_, ?_⟩
  · intro r' hr'
    rw [hdata] at hr'
    rcases (mem_groupBySum _ _).mp hr' with ⟨r, _, hEq⟩
    rw [hEq, rowOfIdx_value, rowOfIdx_longIdx]
  · intro r hr huniq
    rw [hdata]
    refine (mem_groupBySum _ _).mpr ⟨r, hr, ?_⟩
    have hs : sumAt (renamedData df mapping mask) r.longIdx = r.value := by
      unfold sumAt
      rw [huniq]
      simp
    rw [hs, rowOfIdx_self]
  · intro r hr
    rw [hdata]
    exact ⟨rowOfIdx r.longIdx (sumAt (renamedData df mapping mask) r.longIdx),
      (mem_groupBySum _ _).mpr ⟨r, hr, rfl⟩, rowOfIdx_longIdx _ _⟩

/-- C3 witness: renaming region `R2` to `R1` with `check_duplicates=False`
merges the two colliding rows into one row whose value is the sum `1+2`. -/
theorem c3_rename_merges_by_sum_witness :
    ∃ df', rename exDf3 [("region", [("R2", "R1")])] false = .ok df'
      ∧ ∃ mask,
          applyFilters exDf3 (renameFilters [("region", [("R2", "R1")])])
            = .ok mask
        ∧ (∀ r' ∈ df'.data,
            r'.value = sumAt (renamedData exDf3 [("region", [("R2", "R1")])]
              mask) r'.longIdx)
        ∧ (∀ r ∈ renamedData exDf3 [("region", [("R2", "R1")])] mask,
            (renamedData exDf3 [("region", [("R2", "R1")])] mask).filter
                (fun x => x.longIdx == r.longIdx) = [r]
              → r ∈ df'.data)
        ∧ (∀ r ∈ renamedData exDf3 [("region", [("R2", "R1")])] mask,
            ∃ r' ∈ df'.data, r'.longIdx = r.longIdx) :=
  ⟨_, rfl, c3_rename_merges_by_sum exDf3 [("region", [("R2", "R1")])] false _ rfl⟩

/-! ## Claim theorems: append (C5) -/

theorem firstDedup_ne_nil {α : Type} [DecidableEq α] {l : List α}
    (h : l ≠ []) : firstDedup l ≠ [] := by
  cases l with
  | nil => exact absurd rfl h
  | cons a as => exact firstDedup_cons_ne_nil a as

theorem dropDupsBy_nil_ne_nil {α β : Type} [DecidableEq β] (f : α → β)
    {l : List α} (h : l ≠ []) : dropDupsBy f [] l ≠ [] := by
  cases l with
  | nil => exact absurd rfl h
  | cons a as => simp [dropDupsBy]

theorem conflictKeys_ne_nil (a b : Meta) (intersect : List (String × String))
    (cols : List String) (hI : intersect ≠ []) :
    conflictKeys a b intersect cols ≠ [] := by
  unfold conflictKeys
  cases intersect with
  | nil => exact absurd rfl hI
  | cons k ks =>
    apply firstDedup_ne_nil
    intro hmap
    rw [List.map_eq_nil_iff] at hmap
    have hL : (List.zip (k :: ks) (subFrame a (k :: ks) cols)
        ++ List.zip (k :: ks) (subFrame b (k :: ks) cols)) ≠ [] := by
      simp [subFrame]
    exact (dropDupsBy_nil_ne_nil Prod.snd hL) hmap

theorem conflictKeys_subset (a b : Meta) (intersect : List (String × String))
    (cols : List String) :
    ∀ k ∈ conflictKeys a b intersect cols, k ∈ intersect := by
  intro k hk
  unfold conflictKeys at hk
  have hk2 := (mem_firstDedup _ _).mp hk
  rcases List.mem_map.mp hk2 with ⟨e, he, hkey⟩
  have he2 := mem_dropDupsBy _ _ _ _ he
  rcases List.mem_append.mp he2 with h3 | h3
  · exact hkey ▸ (List.of_mem_zip h3).1
  · exact hkey ▸ (List.of_mem_zip h3).1

/-- C5 counterexample: the conflict error does not list exactly the keys
with conflicting values — appending `exDfB5` (which agrees with `exDfA5` on
`(M1, S1)` and differs only on `(M2, S2)`) reports both keys, because the
listed keys are the deduplicated index of the distinct overlapping meta
rows, not the conflicting keys. -/
theorem c5_counterexample :
    append exDfA5 exDfB5 false
        = .error (.metaConflict [("M1", "S1"), ("M2", "S2")])
      ∧ subFrame exDfA5.meta [("M1", "S1")] (sharedCols exDfA5.meta exDfB5.meta)
          = subFrame exDfB5.meta [("M1", "S1")]
              (sharedCols exDfA5.meta exDfB5.meta)
      ∧ subFrame exDfA5.meta [("M2", "S2")] (sharedCols exDfA5.meta exDfB5.meta)
          ≠ subFrame exDfB5.meta [("M2", "S2")]
              (sharedCols exDfA5.meta exDfB5.meta) :=
  ⟨rfl, rfl, by decide⟩

/-- C5 (amended): for an append whose containers share a scenario key (and
matching time mode and extra columns): if the meta columns present in both
agree in value on every shared key and the combined data has no duplicate
long-index tuples, the append succeeds; if any overlapping value differs
and `ignore_meta_conflict=False`, the append fails with the meta-conflict
`ValueError` listing a non-empty subset of the shared scenario keys — the
deduplicated index of the distinct overlapping meta rows, which contains
neither exactly nor necessarily all of the conflicting keys. -/
theorem c5_append_meta (dfA dfB : IamDataFrame)
    (hT : dfA.time_col = dfB.time_col)
    (hI : metaIntersect dfA.meta dfB.meta ≠ []) :
    (subFrame dfA.meta (metaIntersect dfA.meta dfB.meta)
          (sharedCols dfA.meta dfB.meta)
        = subFrame dfB.meta (metaIntersect dfA.meta dfB.meta)
          (sharedCols dfA.meta dfB.meta)
      → ((dfA.data ++ dfB.data).map Row.longIdx).Nodup
      → ∃ df', append dfA dfB false = .ok df')
    ∧ (subFrame dfA.meta (metaIntersect dfA.meta dfB.meta)
          (sharedCols dfA.meta dfB.meta)
        ≠ subFrame dfB.meta (metaIntersect dfA.meta dfB.meta)
          (sharedCols dfA.meta dfB.meta)
      → ∃ ks, append dfA dfB false = .error (.metaConflict ks)
          ∧ ks ≠ []
          ∧ ∀ k ∈ ks, k ∈ metaIntersect dfA.meta dfB.meta) := by
  constructor
  · intro heq hD
    unfold append
    rw [if_neg (by simp [hT])]
    rw [if_neg (by simp [heq])]
    rw [if_pos hD]
    exact ⟨_, rfl⟩
  · intro hne
    unfold append
    rw [if_neg (by simp [hT])]
    rw [if_pos (by simp [hI, bne_iff_ne, hne])]
    exact ⟨_, rfl, conflictKeys_ne_nil _ _ _ _ hI,
      conflictKeys_subset _ _ _ _⟩

/-- C5 witness: appending the agreeing container `exDfB5e` succeeds, and the
conflict direction applied to `exDfB5` yields the error with keys inside
the shared-key set. -/
theorem c5_append_meta_witness :
    (∃ df', append exDfA5 exDfB5e false = .ok df')
      ∧ (∃ ks, append exDfA5 exDfB5 false = .error (.metaConflict ks)
          ∧ ks ≠ []
          ∧ ∀ k ∈ ks, k ∈ metaIntersect exDfA5.meta exDfB5.meta) :=
  ⟨(c5_append_meta exDfA5 exDfB5e rfl (by decide)).1 (by decide) (by decide),
   (c5_append_meta exDfA5 exDfB5 rfl (by decide)).2 (by decide)⟩

/-! ## Claim theorems: aggregation consistency check (C1) -/

theorem colIdx_mem {l : List String} {c : String} (h : c ∈ l) :
    ∃ i, colIdx l c = some i ∧ i < l.length := by
  induction l with
  | nil => simp at h
  | cons a as ih =>
    by_cases ha : (a == c) = true
    · exact ⟨0, by simp [colIdx, ha], by simp⟩
    · have h' : c ∈ as := by
        rcases List.mem_cons.mp h with h' | h'
        · exact absurd (by simp [h']) ha
        · exact h'
      rcases ih h' with ⟨i, hi, hlen⟩
      exact ⟨i + 1, by simp [colIdx, ha, hi], by simp [Nat.succ_lt_succ hlen]⟩

theorem mvalAtRow_setMetaVal_self (cols : List String) (c : String)
    (v : MVal) (mr : MetaRow) (hc : c ∈ cols)
    (hlen : mr.vals.length = cols.length) :
    mvalAtRow cols c (setMetaVal cols c v mr) = v := by
  rcases colIdx_mem hc with ⟨i, hi, hbound⟩
  unfold setMetaVal mvalAtRow
  rw [hi]
  simp only
  rw [List.getD_eq_getElem?_getD, List.getElem?_set_self]
  · rfl
  · simpa [hlen] using hbound

theorem setMetaVal_key (cols : List String) (c : String) (v : MVal)
    (mr : MetaRow) : (setMetaVal cols c v mr).key = mr.key := by
  unfold setMetaVal
  cases colIdx cols c <;> rfl

theorem isclose_map_iff (rtol atol m : ℤ) (a b : Option ℤ) :
    isclose rtol atol a (b.map (fun q => m * q)) = true
      ↔ ∃ x y, a = some x ∧ b = some y
          ∧ |x - m * y| ≤ atol + rtol * |m * y| := by
  cases a with
  | none => simp [isclose]
  | some x =>
    cases b with
    | none => simp [isclose]
    | some y => simp [isclose]

theorem check_aggregate_eq (df : IamDataFrame) (v : String) (ex : Bool)
    (m rtol atol : ℤ) (agg : List (LongIdx × ℤ))
    (hagg : aggregateVar df v = some agg) :
    check_aggregate df v ex m rtol atol
      = (if ((alignOuter (varSeries df v) agg).filter
            (fun e => !isclose rtol atol e.2.1
              (e.2.2.map (fun q => m * q)))).isEmpty
        then (none, df)
        else (some ((alignOuter (varSeries df v) agg).filter
            (fun e => !isclose rtol atol e.2.1
              (e.2.2.map (fun q => m * q)))),
          if ex then excludeOnFail df (mismScens
            ((alignOuter (varSeries df v) agg).filter
              (fun e => !isclose rtol atol e.2.1
                (e.2.2.map (fun q => m * q)))))
          else df)) := by
  unfold check_aggregate
  rw [hagg]

/-- C1 (amended): with components present (`_aggregate` returns a series),
`check_aggregate` returns `None` exactly when every key of the outer
alignment of the existing top-level rows with the component aggregate is
present on both sides and satisfies
`abs(existing - multiplier*aggregate) <= atol + rtol*abs(multiplier*aggregate)`
— a key present on only one side always counts as a mismatch, since
`np.isclose` is false on NaN.  Otherwise it returns exactly the mismatched
(existing, aggregate) pairs, and with `exclude_on_fail=True` every scenario
key with at least one mismatched row — including one-sided keys — is marked
`exclude=True` in metadata (whole-scenario exclusion). -/
theorem c1_check_aggregate (df : IamDataFrame) (v : String) (ex : Bool)
    (m rtol atol : ℤ) (agg : List (LongIdx × ℤ))
    (hagg : aggregateVar df v = some agg)
    (hw : ∀ mr ∈ df.meta.rows, mr.vals.length = df.meta.cols.length)
    (hexc : "exclude" ∈ df.meta.cols) :
    ((check_aggregate df v ex m rtol atol).1 = none
      ↔ ∀ e ∈ alignOuter (varSeries df v) agg,
          ∃ x y, e.2.1 = some x ∧ e.2.2 = some y
            ∧ |x - m * y| ≤ atol + rtol * |m * y|)
    ∧ ((check_aggregate df v ex m rtol atol).1 = none
        → (check_aggregate df v ex m rtol atol).2 = df)
    ∧ (∀ L, (check_aggregate df v ex m rtol atol).1 = some L
        → L ≠ []
          ∧ (∀ e, e ∈ L ↔ e ∈ alignOuter (varSeries df v) agg
              ∧ ¬∃ x y, e.2.1 = some x ∧ e.2.2 = some y
                  ∧ |x - m * y| ≤ atol + rtol * |m * y|)
          ∧ (∀ e ∈ L, (e.1.1, e.1.2.1) ∈ mismScens L)
          ∧ (ex = true → (check_aggregate df v ex m rtol atol).2
              = excludeOnFail df (mismScens L))
          ∧ (ex = false → (check_aggregate df v ex m rtol atol).2 = df))
    ∧ (∀ L, (check_aggregate df v true m rtol atol).1 = some L
        → ∀ mr ∈ (check_aggregate df v true m rtol atol).2.meta.rows,
            ((mismScens L).contains mr.key = true
              → mvalAtRow df.meta.cols "exclude" mr = .b true)
            ∧ ((mismScens L).contains mr.key = false
              → mr ∈ df.meta.rows)) := by
  have hch := check_aggregate_eq df v ex m rtol atol agg hagg
  have hcht := check_aggregate_eq df v true m rtol atol agg hagg
  refine ⟨?_, ?_, ?_, ?_⟩
  · rw [hch]
    by_cases hM : ((alignOuter (varSeries df v) agg).filter
        (fun e => !isclose rtol atol e.2.1
          (e.2.2.map (fun q => m * q)))).isEmpty = true
    · rw [if_pos hM]
      simp only [true_iff]
      intro e he
      rw [List.isEmpty_iff, List.filter_eq_nil_iff] at hM
      have h2 := hM e he
      rw [← isclose_map_iff rtol atol m e.2.1 e.2.2]
      simpa using h2
    · rw [if_neg hM]
      constructor
      · intro h
        exact absurd h (by simp)
      · intro hall
        exfalso
        apply hM
        rw [List.isEmpty_iff, List.filter_eq_nil_iff]
        intro e he
        have h3 := (isclose_map_iff rtol atol m e.2.1 e.2.2).mpr (hall e he)
        simp [h3]
  · rw [hch]
    by_cases hM : ((alignOuter (varSeries df v) agg).filter
        (fun e => !isclose rtol atol e.2.1
          (e.2.2.map (fun q => m * q)))).isEmpty = true
    · rw [if_pos hM]
      intro _
      rfl
    · rw [if_neg hM]
      intro h
      exact absurd h (by simp)
  · intro L hL
    rw [hch] at hL
    by_cases hM : ((alignOuter (varSeries df v) agg).filter
        (fun e => !isclose rtol atol e.2.1
          (e.2.2.map (fun q => m * q)))).isEmpty = true
    · rw [if_pos hM] at hL
      exact absurd hL (by simp)
    · rw [if_neg hM] at hL
      simp only [Prod.fst, Option.some.injEq] at hL
      subst hL
      refine ⟨?_, ?_, ?_, ?_, ?_⟩
      · intro hnil
        rw [hnil] at hM
        exact hM rfl
      · intro e
        rw [List.mem_filter]
        constructor
        · intro ⟨h1, h2⟩
          refine ⟨h1, ?_⟩
          rw [← isclose_map_iff rtol atol m e.2.1 e.2.2]
          simp only [Bool.not_eq_true'] at h2
          simp [h2]
        · intro ⟨h1, h2⟩
          refine ⟨h1, ?_⟩
          rw [← isclose_map_iff rtol atol m e.2.1 e.2.2] at h2
          simpa using h2
      · intro e he
        unfold mismScens
        rw [mem_firstDedup]
        exact List.mem_map_of_mem _ he
      · intro hex
        subst hex
        rw [hch, if_neg hM]
        rfl
      · intro hex
        subst hex
        rw [hch, if_neg hM]
        rfl
  · intro L hL
    rw [hcht] at hL
    by_cases hM : ((alignOuter (varSeries df v) agg).filter
        (fun e => !isclose rtol atol e.2.1
          (e.2.2.map (fun q => m * q)))).isEmpty = true
    · rw [if_pos hM] at hL
      exact absurd hL (by simp)
    · rw [if_neg hM] at hL
      simp only [Prod.fst, Option.some.injEq] at hL
      subst hL
      rw [hcht, if_neg hM]
      intro mr hmr
      simp only [excludeOnFail, if_pos rfl] at hmr
      rcases List.mem_map.mp hmr with ⟨mr0, hmr0, hEq⟩
      by_cases hct : (mismScens ((alignOuter (varSeries df v) agg).filter
          (fun e => !isclose rtol atol e.2.1
            (e.2.2.map (fun q => m * q))))).contains mr0.key = true
      · rw [if_pos hct] at hEq
        subst hEq
        rw [setMetaVal_key]
        constructor
        · intro _
          exact mvalAtRow_setMetaVal_self df.meta.cols "exclude" (.b true)
            mr0 hexc (hw mr0 hmr0)
        · intro hcf
          rw [hct] at hcf
          exact absurd hcf (by simp)
      · rw [if_neg hct] at hEq
        subst hEq
        exact ⟨fun hct2 => absurd hct2 hct, fun _ => hmr0⟩

/-- C1 counterexample: in `exDf1` every alignment key present on both sides
is within tolerance `atol=0` (the 2010 key, where `5 = 5`), yet
`check_aggregate` does not return `None`: the 2020 key exists only on the
existing-rows side of the outer alignment and is reported as a mismatch
with a missing aggregate. -/
theorem c1_counterexample :
    (check_aggregate exDf1 "A" false 1 0 0).1
        = some [(("M", "S", "R", "A", "U", yearT 2020, []), some 7, none)]
      ∧ aggregateVar exDf1 "A" = some exAgg1
      ∧ (∀ e ∈ alignOuter (varSeries exDf1 "A") exAgg1,
          e.2.1.isSome = true → e.2.2.isSome = true →
            isclose 0 0 e.2.1 (e.2.2.map (fun q => 1 * q)) = true) := by
  refine ⟨by decide, by decide, by decide⟩

/-- C1 witness: the amended characterization at the concrete container
`exDf1`. -/
theorem c1_check_aggregate_witness :
    ((check_aggregate exDf1 "A" false 1 0 0).1 = none
      ↔ ∀ e ∈ alignOuter (varSeries exDf1 "A") exAgg1,
          ∃ x y, e.2.1 = some x ∧ e.2.2 = some y
            ∧ |x - 1 * y| ≤ 0 + 0 * |1 * y|)
    ∧ ((check_aggregate exDf1 "A" false 1 0 0).1 = none
        → (check_aggregate exDf1 "A" false 1 0 0).2 = exDf1)
    ∧ (∀ L, (check_aggregate exDf1 "A" false 1 0 0).1 = some L
        → L ≠ []
          ∧ (∀ e, e ∈ L ↔ e ∈ alignOuter (varSeries exDf1 "A") exAgg1
              ∧ ¬∃ x y, e.2.1 = some x ∧ e.2.2 = some y
                  ∧ |x - 1 * y| ≤ 0 + 0 * |1 * y|)
          ∧ (∀ e ∈ L, (e.1.1, e.1.2.1) ∈ mismScens L)
          ∧ (false = true → (check_aggregate exDf1 "A" false 1 0 0).2
              = excludeOnFail exDf1 (mismScens L))
          ∧ (false = false → (check_aggregate exDf1 "A" false 1 0 0).2
              = exDf1))
    ∧ (∀ L, (check_aggregate exDf1 "A" true 1 0 0).1 = some L
        → ∀ mr ∈ (check_aggregate exDf1 "A" true 1 0 0).2.meta.rows,
            ((mismScens L).contains mr.key = true
              → mvalAtRow exDf1.meta.cols "exclude" mr = .b true)
            ∧ ((mismScens L).contains mr.key = false
              → mr ∈ exDf1.meta.rows)) :=
  c1_check_aggregate exDf1 "A" false 1 0 0 exAgg1 (by decide) (by decide)
    (by decide)

/-! ## Claim theorems: rename round-trip (C4) -/

theorem replaceVal_single (a b v : String) :
    replaceVal [(a, b)] v = if v == a then b else v := by
  unfold replaceVal
  simp only [List.lookup]
  by_cases h : (v == a) = true
  · simp [h]
  · simp [h]

theorem subst_inj_val (a b v w : String) (hv : v ≠ b) (hw : w ≠ b)
    (c1 c2 : Bool)
    (h : (if (c1 && (v == a)) = true then b else v)
      = (if (c2 && (w == a)) = true then b else w)) :
    v = w := by
  by_cases h1 : (c1 && (v == a)) = true
  · by_cases h2 : (c2 && (w == a)) = true
    · simp only [Bool.and_eq_true] at h1 h2
      have ha1 : v = a := beq_iff_eq.mp h1.2
      have ha2 : w = a := beq_iff_eq.mp h2.2
      rw [ha1, ha2]
    · rw [if_pos h1, if_neg h2] at h
      exact absurd h.symm hw
  · by_cases h2 : (c2 && (w == a)) = true
    · rw [if_neg h1, if_pos h2] at h
      exact absurd h hv
    · rw [if_neg h1, if_neg h2] at h
      exact h

theorem dups_of_nodup_map (l : List Row) (g : Row → Row) (p : Row → Bool)
    (hN : ((l.map g).map Row.longIdx).Nodup) :
    dupElems [] (firstDedup (((l.filter p).map g).map Row.longIdx)
      ++ firstDedup (((l.filter (fun x => !p x)).map g).map Row.longIdx))
      = [] := by
  rw [List.map_map] at hN
  rw [List.map_map, List.map_map]
  have hA : ((l.filter p).map (Row.longIdx ∘ g)).Nodup :=
    List.Nodup.sublist (List.Sublist.map _ (List.filter_sublist l)) hN
  have hB : ((l.filter (fun x => !p x)).map (Row.longIdx ∘ g)).Nodup :=
    List.Nodup.sublist (List.Sublist.map _ (List.filter_sublist l)) hN
  rw [firstDedup_eq_self _ hA, firstDedup_eq_self _ hB]
  have hperm : List.Perm
      ((l.filter p).map (Row.longIdx ∘ g)
        ++ (l.filter (fun x => !p x)).map (Row.longIdx ∘ g))
      (l.map (Row.longIdx ∘ g)) := by
    rw [← List.map_append]
    exact List.Perm.map _ (List.filter_append_perm p l)
  exact dupElems_eq_nil [] _ (hperm.nodup_iff.mpr hN) (by simp)

theorem getD_set_self {α : Type} (l : List α) (i : Nat) (v d : α)
    (h : i < l.length) : (l.set i v).getD i d = v := by
  rw [List.getD_eq_getElem?_getD, List.getElem?_set_self]
  · rfl
  · simpa using h

theorem set_getD_self {α : Type} (l : List α) (i : Nat) (d : α)
    (h : i < l.length) : l.set i (l.getD i d) = l := by
  apply List.ext_getElem?
  intro j
  rcases eq_or_ne i j with rfl | hne
  · rw [List.getElem?_set_self, List.getD_eq_getElem?_getD,
      List.getElem?_eq_getElem h]
    · rfl
    · simpa using h
  · rw [List.getElem?_set_ne hne]

theorem set_inj_iff {α : Type} (l m : List α) (i : Nat) (v w x : α)
    (hl : i < l.length) (hm : i < m.length) :
    l.set i v = m.set i w ↔ (v = w ∧ l.set i x = m.set i x) := by
  constructor
  · intro h
    have hv : (l.set i v)[i]? = (m.set i w)[i]? := by rw [h]
    rw [List.getElem?_set_self, List.getElem?_set_self] at hv
    · refine ⟨Option.some_injective _ hv, ?_⟩
      apply List.ext_getElem?
      intro j
      rcases eq_or_ne i j with rfl | hne
      · rw [List.getElem?_set_self, List.getElem?_set_self]
        · simpa using hm
        · simpa using hl
      · rw [List.getElem?_set_ne hne, List.getElem?_set_ne hne]
        have h2 := congrArg (fun t => t[j]?) h
        simpa [List.getElem?_set_ne hne] using h2
    · simpa using hm
    · simpa using hl
  · rintro ⟨rfl, h⟩
    apply List.ext_getElem?
    intro j
    rcases eq_or_ne i j with rfl | hne
    · rw [List.getElem?_set_self, List.getElem?_set_self]
      · simpa using hm
      · simpa using hl
    · rw [List.getElem?_set_ne hne, List.getElem?_set_ne hne]
      have h2 := congrArg (fun t => t[j]?) h
      simpa [List.getElem?_set_ne hne] using h2

theorem contains_true_of_mem {α : Type} [BEq α] [LawfulBEq α]
    (l : List α) (a : α) (h : a ∈ l) : l.contains a = true :=
  List.elem_eq_true_of_mem h

theorem contains_false_of_not_mem {α : Type} [BEq α] [LawfulBEq α]
    (l : List α) (a : α) (h : a ∉ l) : l.contains a = false := by
  cases hc : l.contains a
  · rfl
  · exact absurd (List.mem_of_elem_eq_true hc) h

theorem nodup_subst (get : Row → String) (set : String → Row → Row)
    (P : Row → Prop) (aa bb : String) (d : List Row)
    (hset_get : ∀ r, P r → set (get r) r = r)
    (hidx : ∀ v w r r2, P r → P r2 →
      ((set v r).longIdx = (set w r2).longIdx
        ↔ (v = w ∧ (set "" r).longIdx = (set "" r2).longIdx)))
    (hPd : ∀ r ∈ d, P r)
    (hU : (d.map Row.longIdx).Nodup)
    (hb : ∀ r ∈ d, get r ≠ bb) :
    ((d.map (substCol get set aa bb)).map Row.longIdx).Nodup := by
  rw [List.map_map]
  apply List.Nodup.map_on _ (hU.of_map)
  intro x hx y hy hf
  have hgx : substCol get set aa bb x
      = set (if (matchStr false [aa] (get x) && (get x == aa)) = true
          then bb else get x) x := by
    unfold substCol
    by_cases hc : (matchStr false [aa] (get x) && (get x == aa)) = true
    · rw [if_pos hc, if_pos hc]
    · rw [if_neg hc, if_neg hc, hset_get x (hPd x hx)]
  have hgy : substCol get set aa bb y
      = set (if (matchStr false [aa] (get y) && (get y == aa)) = true
          then bb else get y) y := by
    unfold substCol
    by_cases hc : (matchStr false [aa] (get y) && (get y == aa)) = true
    · rw [if_pos hc, if_pos hc]
    · rw [if_neg hc, if_neg hc, hset_get y (hPd y hy)]
  simp only [Function.comp_apply] at hf
  rw [hgx, hgy, hidx _ _ _ _ (hPd x hx) (hPd y hy)] at hf
  have hgeq : get x = get y :=
    subst_inj_val aa bb (get x) (get y) (hb x hx) (hb y hy) _ _ hf.1
  have hxy : x.longIdx = y.longIdx := by
    have hx2 : x.longIdx = (set (get x) x).longIdx := by
      rw [hset_get x (hPd x hx)]
    have hy2 : y.longIdx = (set (get y) y).longIdx := by
      rw [hset_get y (hPd y hy)]
    rw [hx2, hy2, hidx _ _ _ _ (hPd x hx) (hPd y hy)]
    exact ⟨hgeq, hf.2⟩
  exact List.inj_on_of_nodup_map hU hx hy hxy

theorem rename_single_ok (df : IamDataFrame) (col aa bb : String)
    (get : Row → String) (set : String → Row → Row) (P : Row → Prop)
    (M : Meta)
    (hguard : ((([(col, [(aa, bb)])] : RenameMapping).any
        (fun e => e.1 == "model" || e.1 == "scenario"))
      && (([(col, [(aa, bb)])] : RenameMapping).any
        (fun e => (dataCols df).contains e.1))) = false)
    (hm3 : (col == "regexp") = false)
    (hrec : recognized df col = true)
    (hrk : ∀ (pats : List String) (r : Row),
      rowKeep df [(col, some (.strs pats))] r = matchStr false pats (get r))
    (hrepl : ∀ (m : List (String × String)) (r : Row), P r →
      replaceRowCol df col m r = set (replaceVal m (get r)) r)
    (hset_get : ∀ r, P r → set (get r) r = r)
    (hPd : ∀ r ∈ df.data, P r)
    (hmf : renameMetaFold (renameSelKeys df (df.data.map
        (fun r => matchStr false [aa] (get r)))) (dataCols df) df.meta
        [(col, [(aa, bb)])] = .ok M)
    (hN : ((df.data.map (substCol get set aa bb)).map Row.longIdx).Nodup) :
    rename df [(col, [(aa, bb)])] true
      = .ok { df with data := df.data.map (substCol get set aa bb)
                      meta := M } := by
  have hq : ∀ r, rowKeep df [(col, some (FilterVal.strs [aa]))] r
      = matchStr false [aa] (get r) := fun r => hrk [aa] r
  have hck : checkFilterKeys df [(col, some (FilterVal.strs [aa]))]
      = .ok () := by
    simp only [checkFilterKeys]
    rw [if_neg (by simp [hm3])]
    rw [if_pos hrec]
  have haf : applyFilters df [(col, some (FilterVal.strs [aa]))]
      = .ok (df.data.map (fun r => matchStr false [aa] (get r))) := by
    unfold applyFilters
    rw [hck]
    show Except.ok (df.data.map (rowKeep df [(col, some (FilterVal.strs [aa]))]))
      = Except.ok (df.data.map (fun r => matchStr false [aa] (get r)))
    rw [List.map_congr_left (fun r _ => hq r)]
  have hrd : renamedData df [(col, [(aa, bb)])]
      (df.data.map (fun r => matchStr false [aa] (get r)))
        = df.data.map (substCol get set aa bb) := by
    simp only [renamedData, List.foldl_cons, List.foldl_nil]
    show List.zipWith
        (fun r b0 => if b0 then replaceRowCol df col [(aa, bb)] r else r)
        df.data (df.data.map (fun r => matchStr false [aa] (get r)))
      = df.data.map (substCol get set aa bb)
    rw [zipWith_if_map]
    refine List.map_congr_left (fun r hr => ?_)
    rw [hrepl [(aa, bb)] r (hPd r hr), replaceVal_single]
    unfold substCol
    by_cases h1 : matchStr false [aa] (get r) = true
    · by_cases h2 : (get r == aa) = true
      · rw [if_pos h1, if_pos h2, if_pos (by simp [h1, h2])]
      · rw [if_pos h1, if_neg h2, if_neg (by simp [h2]),
          hset_get r (hPd r hr)]
    · rw [if_neg h1, if_neg (by simp [h1])]
  have hdups : renameDups df [(col, [(aa, bb)])]
      (df.data.map (fun r => matchStr false [aa] (get r))) = [] := by
    unfold renameDups
    rw [hrd]
    rw [selectMask_map df.data (fun r => matchStr false [aa] (get r))
      (substCol get set aa bb)]
    rw [selectMask_map_not df.data (fun r => matchStr false [aa] (get r))
      (substCol get set aa bb)]
    exact dups_of_nodup_map df.data (substCol get set aa bb)
      (fun r => matchStr false [aa] (get r)) hN
  have hrf : renameFilters [(col, [(aa, bb)])]
      = [(col, some (FilterVal.strs [aa]))] := rfl
  unfold rename
  rw [if_neg (by simp only [hguard]; exact Bool.false_ne_true)]
  rw [hrf]
  simp only [haf, hmf, hdups]
  rw [if_neg (by simp)]
  rw [hrd, groupBySum_eq_self _ hN]

theorem subst_roundtrip_pointwise (get : Row → String)
    (set : String → Row → Row) (P : Row → Prop) (a b : String) (r : Row)
    (hget_set : ∀ v r2, P r2 → get (set v r2) = v)
    (hset_get : ∀ r2, P r2 → set (get r2) r2 = r2)
    (hset_set : ∀ v w r2, P r2 → set v (set w r2) = set v r2)
    (hP : P r)
    (hb : get r ≠ b) :
    substCol get set b a (substCol get set a b r) = r := by
  unfold substCol
  by_cases hc : (matchStr false [a] (get r) && (get r == a)) = true
  · rw [if_pos hc]
    have hgb : get (set b r) = b := hget_set b r hP
    have hcond : (matchStr false [b] (get (set b r))
        && (get (set b r) == b)) = true := by
      rw [hgb]
      simp [matchStr_self]
    rw [if_pos hcond, hset_set a b r hP]
    simp only [Bool.and_eq_true] at hc
    have hga : get r = a := beq_iff_eq.mp hc.2
    rw [← hga, hset_get r hP]
  · rw [if_neg hc]
    have hcond : (matchStr false [b] (get r) && (get r == b)) = false := by
      have hne : (get r == b) = false := by
        rw [beq_eq_false_iff_ne]
        exact hb
      simp [hne]
    rw [if_neg (by simp [hcond])]

theorem rename_roundtrip_aux (df : IamDataFrame) (col a b : String)
    (get : Row → String) (set : String → Row → Row) (P : Row → Prop)
    (hm1 : (col == "model") = false) (hm2 : (col == "scenario") = false)
    (hm3 : (col == "regexp") = false)
    (hdc : (dataCols df).contains col = true)
    (hrec : recognized df col = true)
    (hrk : ∀ (pats : List String) (d0 : List Row) (r : Row),
      rowKeep { df with data := d0 } [(col, some (.strs pats))] r
        = matchStr false pats (get r))
    (hrepl : ∀ (m : List (String × String)) (d0 : List Row) (r : Row), P r →
      replaceRowCol { df with data := d0 } col m r
        = set (replaceVal m (get r)) r)
    (hget_set : ∀ v r, P r → get (set v r) = v)
    (hset_get : ∀ r, P r → set (get r) r = r)
    (hset_set : ∀ v w r, P r → set v (set w r) = set v r)
    (hPset : ∀ v r, P r → P (set v r))
    (hidx : ∀ v w r r2, P r → P r2 →
      ((set v r).longIdx = (set w r2).longIdx
        ↔ (v = w ∧ (set "" r).longIdx = (set "" r2).longIdx)))
    (hPd : ∀ r ∈ df.data, P r)
    (hU : (df.data.map Row.longIdx).Nodup)
    (hb : ∀ r ∈ df.data, get r ≠ b) :
    ∃ df1, rename df [(col, [(a, b)])] true = .ok df1
      ∧ rename df1 [(col, [(b, a)])] true = .ok df := by
  have hPD1 : ∀ r ∈ df.data.map (substCol get set a b), P r := by
    intro r hr
    rcases List.mem_map.mp hr with ⟨r0, hr0, rfl⟩
    unfold substCol
    by_cases hc : (matchStr false [a] (get r0) && (get r0 == a)) = true
    · rw [if_pos hc]
      exact hPset b r0 (hPd r0 hr0)
    · rw [if_neg hc]
      exact hPd r0 hr0
  have hN1 : ((df.data.map (substCol get set a b)).map Row.longIdx).Nodup :=
    nodup_subst get set P a b df.data hset_get hidx hPd hU hb
  have hmf1 : renameMetaFold (renameSelKeys df (df.data.map
      (fun r => matchStr false [a] (get r)))) (dataCols df) df.meta
      [(col, [(a, b)])] = .ok df.meta := by
    simp only [renameMetaFold]
    rw [if_neg (by simp [hm1, hm2])]
    rw [if_pos hdc]
  have h1 : rename df [(col, [(a, b)])] true
      = .ok { df with data := df.data.map (substCol get set a b)
                      meta := df.meta } :=
    rename_single_ok df col a b get set P df.meta (by simp [hm1, hm2]) hm3
      hrec (fun pats r => hrk pats df.data r)
      (fun m r hP => hrepl m df.data r hP) hset_get hPd hmf1 hN1
  have hpt : ∀ r ∈ df.data,
      (substCol get set b a ∘ substCol get set a b) r = id r :=
    fun r hr => subst_roundtrip_pointwise get set P a b r hget_set hset_get
      hset_set (hPd r hr) (hb r hr)
  have hdd : (df.data.map (substCol get set a b)).map (substCol get set b a)
      = df.data := by
    rw [List.map_map, List.map_congr_left hpt, List.map_id]
  have hN2 : (((df.data.map (substCol get set a b)).map
      (substCol get set b a)).map Row.longIdx).Nodup := by
    rw [hdd]
    exact hU
  refine ⟨_, h1, ?_⟩
  refine Eq.trans (rename_single_ok _ col b a get set P df.meta
    ?_ hm3 ?_ ?_ ?_ hset_get ?_ ?_ ?_) ?_
  · exact (by simp [hm1, hm2] :
      ((([(col, [(b, a)])] : RenameMapping).any
          (fun e => e.1 == "model" || e.1 == "scenario"))
        && (([(col, [(b, a)])] : RenameMapping).any
          (fun e => (dataCols df).contains e.1))) = false)
  · exact hrec
  · exact fun pats r => hrk pats (df.data.map (substCol get set a b)) r
  · exact fun m r hP => hrepl m (df.data.map (substCol get set a b)) r hP
  · exact hPD1
  · exact (by
      simp only [renameMetaFold]
      rw [if_neg (by simp [hm1, hm2])]
      rw [if_pos hdc] :
      renameMetaFold (renameSelKeys
          { df with data := df.data.map (substCol get set a b)
                    meta := df.meta }
          ((df.data.map (substCol get set a b)).map
            (fun r => matchStr false [b] (get r))))
        (dataCols df) df.meta [(col, [(b, a)])] = .ok df.meta)
  · exact hN2
  · have hfin : ({ df with
        data := ((df.data.map (substCol get set a b)).map
          (substCol get set b a))
        meta := df.meta } : IamDataFrame) = df := by
      rw [hdd]
    exact congrArg Except.ok hfin

theorem rename_timecol_noop (df : IamDataFrame) (a b : String)
    (htc : df.time_col = "year" ∨ df.time_col = "time")
    (hm : df.meta.cols.contains df.time_col = false)
    (hU : (df.data.map Row.longIdx).Nodup) :
    rename df [(df.time_col, [(a, b)])] true = .ok df := by
  have hms : ((df.time_col == "model") || (df.time_col == "scenario"))
      = false := by
    rcases htc with h | h <;> rw [h] <;> rfl
  have hrx : (df.time_col == "regexp") = false := by
    rcases htc with h | h <;> rw [h] <;> rfl
  have hrec : recognized df df.time_col = true := by
    rcases htc with h | h <;> simp [recognized, h]
  have hkeep : ∀ r, rowKeep df [(df.time_col, some (FilterVal.strs [a]))] r
      = false := by
    intro r
    have hm' := hm
    rcases htc with h | h
    · rw [h] at hm'
      have hm2 : "year" ∉ df.meta.cols := by simpa using hm'
      simp [rowKeep, rowKeep1, regexpFlag, specLookup, h, hm', hm2,
        intsMatch, timesMatch]
    · rw [h] at hm'
      have hm2 : "time" ∉ df.meta.cols := by simpa using hm'
      simp [rowKeep, rowKeep1, regexpFlag, specLookup, h, hm', hm2,
        intsMatch, timesMatch]
  have hck : checkFilterKeys df [(df.time_col, some (FilterVal.strs [a]))]
      = .ok () := by
    simp only [checkFilterKeys]
    rw [if_neg (by simp [hrx])]
    rw [if_pos hrec]
  have haf : applyFilters df [(df.time_col, some (FilterVal.strs [a]))]
      = .ok (df.data.map (fun _ => false)) := by
    unfold applyFilters
    rw [hck]
    show Except.ok (df.data.map
        (rowKeep df [(df.time_col, some (FilterVal.strs [a]))]))
      = Except.ok (df.data.map (fun _ => false))
    rw [List.map_congr_left (fun r _ => hkeep r)]
  have hrd : renamedData df [(df.time_col, [(a, b)])]
      (df.data.map (fun _ => false)) = df.data := by
    simp only [renamedData, List.foldl_cons, List.foldl_nil]
    show List.zipWith (fun r b0 =>
        if b0 then replaceRowCol df df.time_col [(a, b)] r else r)
      df.data (df.data.map (fun _ => false)) = df.data
    rw [zipWith_if_map]
    simp
  have hdcc : (dataCols df).contains df.time_col = true := by
    apply contains_true_of_mem
    unfold dataCols
    rw [List.mem_append]
    exact Or.inl (by simp)
  have hmf : renameMetaFold (renameSelKeys df (df.data.map (fun _ => false)))
      (dataCols df) df.meta [(df.time_col, [(a, b)])] = .ok df.meta := by
    simp only [renameMetaFold]
    rw [if_neg (by simp [hms])]
    rw [if_pos hdcc]
  have hdups : renameDups df [(df.time_col, [(a, b)])]
      (df.data.map (fun _ => false)) = [] := by
    unfold renameDups
    rw [hrd]
    rw [show ((df.data.map (fun _ => false)).map (fun b0 => !b0))
        = df.data.map (fun _ => true) by simp]
    rw [selectMask_map_self df.data (fun _ => false)]
    rw [selectMask_map_self df.data (fun _ => true)]
    rw [show (df.data.filter (fun _ => false)) = ([] : List Row) by simp]
    rw [show (df.data.filter (fun _ => true)) = df.data by simp]
    rw [show firstDedup (([] : List Row).map Row.longIdx)
        = ([] : List LongIdx) from rfl]
    rw [List.nil_append]
    rw [firstDedup_eq_self _ hU]
    exact dupElems_eq_nil [] _ hU (by simp)
  have hrf : renameFilters [(df.time_col, [(a, b)])]
      = [(df.time_col, some (FilterVal.strs [a]))] := rfl
  unfold rename
  rw [if_neg (by simp [hms])]
  rw [hrf]
  simp only [haf, hmf, hdups]
  rw [if_neg (by simp)]
  rw [hrd, groupBySum_eq_self _ hU]

theorem metaSubst_key (mget : MetaRow → String)
    (mset : String → MetaRow → MetaRow)
    (kset : String → String × String → String × String)
    (hkey_mset : ∀ v mr, (mset v mr).key = kset v mr.key)
    (hkset_mget : ∀ mr : MetaRow, kset (mget mr) mr.key = mr.key)
    (sel : List (String × String)) (aa bb : String) (mr : MetaRow) :
    (if sel.contains mr.key then mset (replaceVal [(aa, bb)] (mget mr)) mr
     else mr).key
      = kset (if (sel.contains mr.key && (mget mr == aa)) = true then bb
          else mget mr) mr.key := by
  by_cases hc : sel.contains mr.key = true
  · have hc2 : mr.key ∈ sel := List.mem_of_elem_eq_true hc
    rw [if_pos hc, hkey_mset, replaceVal_single]
    simp [hc, hc2]
  · rw [if_neg hc]
    have hc' : sel.contains mr.key = false := by
      simpa using hc
    rw [hc']
    simp [hkset_mget]

theorem rename_roundtrip_idx_aux (df : IamDataFrame) (col a b : String)
    (get : Row → String) (set : String → Row → Row)
    (mget : MetaRow → String) (mset : String → MetaRow → MetaRow)
    (kset : String → String × String → String × String)
    (hms : ((col == "model") || (col == "scenario")) = true)
    (hm3 : (col == "regexp") = false)
    (hdc : (dataCols df).contains col = false)
    (hrecM : ∀ (d0 : List Row) (M : Meta),
      recognized { df with data := d0, meta := M } col = true)
    (hrkM : ∀ (pats : List String) (d0 : List Row) (M : Meta) (r : Row),
      M.cols = df.meta.cols →
      rowKeep { df with data := d0, meta := M } [(col, some (.strs pats))] r
        = matchStr false pats (get r))
    (hreplM : ∀ (m : List (String × String)) (d0 : List Row) (M : Meta)
        (r : Row),
      replaceRowCol { df with data := d0, meta := M } col m r
        = set (replaceVal m (get r)) r)
    (hget_set : ∀ v r, get (set v r) = v)
    (hset_get : ∀ r, set (get r) r = r)
    (hset_set : ∀ v w r, set v (set w r) = set v r)
    (hidx : ∀ v w r r2, (set v r).longIdx = (set w r2).longIdx
      ↔ (v = w ∧ (set "" r).longIdx = (set "" r2).longIdx))
    (hstep : ∀ (m : List (String × String)) (mr : MetaRow),
      (if col == "model" then { mr with model := replaceVal m mr.model }
       else { mr with scenario := replaceVal m mr.scenario })
        = mset (replaceVal m (mget mr)) mr)
    (hkey_mset : ∀ v mr, (mset v mr).key = kset v mr.key)
    (hmget_mset : ∀ v mr, mget (mset v mr) = v)
    (hmset_mget : ∀ mr, mset (mget mr) mr = mr)
    (hmset_mset : ∀ v w mr, mset v (mset w mr) = mset v mr)
    (hkset_inj : ∀ v w k k2, kset v k = kset w k2
      ↔ (v = w ∧ kset "" k = kset "" k2))
    (hkset_mget : ∀ mr : MetaRow, kset (mget mr) mr.key = mr.key)
    (hget_key : ∀ (r : Row) (mr : MetaRow),
      (r.model, r.scenario) = mr.key → get r = mget mr)
    (hkset_rkey : ∀ (v : String) (r : Row),
      ((set v r).model, (set v r).scenario) = kset v (r.model, r.scenario))
    (hU : (df.data.map Row.longIdx).Nodup)
    (hMU : (metaKeys df.meta).Nodup)
    (hb : ∀ r ∈ df.data, get r ≠ b)
    (hbM : ∀ mr ∈ df.meta.rows, mget mr ≠ b) :
    ∃ df1, rename df [(col, [(a, b)])] true = .ok df1
      ∧ rename df1 [(col, [(b, a)])] true = .ok df := by
  have hMU' : (df.meta.rows.map MetaRow.key).Nodup := hMU
  have hNod1 : ∀ (sel : List (String × String)),
      ((df.meta.rows.map (fun mr =>
          if sel.contains mr.key then mset (replaceVal [(a, b)] (mget mr)) mr
          else mr)).map MetaRow.key).Nodup := by
    intro sel
    rw [List.map_map]
    apply List.Nodup.map_on _ (hMU'.of_map)
    intro x hx y hy hf
    simp only [Function.comp_apply] at hf
    rw [metaSubst_key mget mset kset hkey_mset hkset_mget sel a b x,
      metaSubst_key mget mset kset hkey_mset hkset_mget sel a b y,
      hkset_inj] at hf
    have hg : mget x = mget y :=
      subst_inj_val a b (mget x) (mget y) (hbM x hx) (hbM y hy) _ _ hf.1
    have hkey : x.key = y.key := by
      have h1 : x.key = kset (mget x) x.key := (hkset_mget x).symm
      have h2 : y.key = kset (mget y) y.key := (hkset_mget y).symm
      rw [h1, h2, hkset_inj]
      exact ⟨hg, hf.2⟩
    exact List.inj_on_of_nodup_map hMU' hx hy hkey
  have hstepEq1 : ∀ (sel : List (String × String)),
      renameMetaStep sel df.meta col [(a, b)]
        = .ok (renameIdxMeta mget mset sel a b df.meta) := by
    intro sel
    simp only [renameMetaStep, hstep]
    rw [if_pos (hNod1 sel)]
    rfl
  have hmf1 : renameMetaFold (renameSelKeys df (df.data.map
      (fun r => matchStr false [a] (get r)))) (dataCols df) df.meta
      [(col, [(a, b)])]
      = .ok (renameIdxMeta mget mset (renameSelKeys df (df.data.map
          (fun r => matchStr false [a] (get r)))) a b df.meta) := by
    simp only [renameMetaFold]
    rw [if_pos hms]
    simp only [hstepEq1]
  have hdcm : col ∉ dataCols df := by simpa using hdc
  have hN1 : ((df.data.map (substCol get set a b)).map Row.longIdx).Nodup :=
    nodup_subst get set (fun _ => True) a b df.data (fun r _ => hset_get r)
      (fun v w r r2 _ _ => hidx v w r r2) (fun r _ => trivial) hU hb
  have h1 : rename df [(col, [(a, b)])] true
      = .ok { df with data := df.data.map (substCol get set a b)
                      meta := renameIdxMeta mget mset
                        (renameSelKeys df (df.data.map
                          (fun r => matchStr false [a] (get r)))) a b
                        df.meta } :=
    rename_single_ok df col a b get set (fun _ => True) _
      (by simp [hdcm]) hm3 (hrecM df.data df.meta)
      (fun pats r => hrkM pats df.data df.meta r rfl)
      (fun m r _ => hreplM m df.data df.meta r)
      (fun r _ => hset_get r) (fun r _ => trivial) hmf1 hN1
  have hpt : ∀ r ∈ df.data,
      (substCol get set b a ∘ substCol get set a b) r = id r :=
    fun r hr => subst_roundtrip_pointwise get set (fun _ => True) a b r
      (fun v r2 _ => hget_set v r2) (fun r2 _ => hset_get r2)
      (fun v w r2 _ => hset_set v w r2) trivial (hb r hr)
  have hdd : (df.data.map (substCol get set a b)).map (substCol get set b a)
      = df.data := by
    rw [List.map_map, List.map_congr_left hpt, List.map_id]
  have hN2 : (((df.data.map (substCol get set a b)).map
      (substCol get set b a)).map Row.longIdx).Nodup := by
    rw [hdd]
    exact hU
  have hselArg : ∀ mr ∈ df.meta.rows,
      (renameSelKeys df (df.data.map
          (fun r => matchStr false [a] (get r)))).contains mr.key = true →
      (mget mr == a) = true →
      (kset b mr.key) ∈ firstDedup
        (((df.data.map (substCol get set a b)).filter
            (fun r => matchStr false [b] (get r))).map
          (fun r => (r.model, r.scenario))) := by
    intro mr hmr hc1 he
    rw [mem_firstDedup]
    have hmem1 : mr.key ∈ renameSelKeys df (df.data.map
        (fun r => matchStr false [a] (get r))) :=
      List.mem_of_elem_eq_true hc1
    have hmem1b : mr.key ∈ ((df.data.filter
        (fun r => matchStr false [a] (get r))).map
          (fun r => (r.model, r.scenario))) := by
      have heq1 : renameSelKeys df (df.data.map
          (fun r => matchStr false [a] (get r)))
          = firstDedup ((df.data.filter
              (fun r => matchStr false [a] (get r))).map
            (fun r => (r.model, r.scenario))) := by
        unfold renameSelKeys
        rw [selectMask_map_self]
      rw [heq1, mem_firstDedup] at hmem1
      exact hmem1
    rcases List.mem_map.mp hmem1b with ⟨r, hrf, hrk2⟩
    have hrk2b : (r.model, r.scenario) = mr.key := hrk2
    have hr : r ∈ df.data := List.mem_of_mem_filter hrf
    have hga : get r = a := by
      rw [hget_key r mr hrk2b]
      exact beq_iff_eq.mp he
    have hsub : substCol get set a b r = set b r := by
      unfold substCol
      rw [if_pos (by rw [hga]; simp [matchStr_self])]
    apply List.mem_map.mpr
    refine ⟨set b r, List.mem_filter.mpr ⟨?_, ?_⟩, ?_⟩
    · rw [← hsub]
      exact List.mem_map_of_mem _ hr
    · show matchStr false [b] (get (set b r)) = true
      rw [hget_set]
      exact matchStr_self b
    · show ((set b r).model, (set b r).scenario) = kset b mr.key
      rw [hkset_rkey, hrk2b]
  have hptM : ∀ (s1 s2 : List (String × String)),
      (∀ mr ∈ df.meta.rows, s1.contains mr.key = true →
        (mget mr == a) = true → s2.contains (kset b mr.key) = true) →
      ∀ mr ∈ df.meta.rows,
      ((fun x => if s2.contains x.key then
          mset (replaceVal [(b, a)] (mget x)) x else x) ∘
        (fun x => if s1.contains x.key then
          mset (replaceVal [(a, b)] (mget x)) x else x)) mr = id mr := by
    intro s1 s2 hs mr hmr
    simp only [Function.comp_apply, id_eq]
    by_cases hc1 : s1.contains mr.key = true
    · rw [if_pos hc1, replaceVal_single]
      by_cases he : (mget mr == a) = true
      · rw [if_pos he]
        have hc2 : s2.contains ((mset b mr).key) = true := by
          rw [hkey_mset]
          exact hs mr hmr hc1 he
        rw [if_pos hc2, hmget_mset, replaceVal_single,
          if_pos (by simp), hmset_mset, ← beq_iff_eq.mp he, hmset_mget]
      · rw [if_neg he, hmset_mget]
        have hnb : (mget mr == b) = false :=
          beq_eq_false_iff_ne.mpr (hbM mr hmr)
        by_cases hc2 : s2.contains mr.key = true
        · rw [if_pos hc2, replaceVal_single, if_neg (by simp [hnb]),
            hmset_mget]
        · rw [if_neg hc2]
    · rw [if_neg hc1]
      have hnb : (mget mr == b) = false :=
        beq_eq_false_iff_ne.mpr (hbM mr hmr)
      by_cases hc2 : s2.contains mr.key = true
      · rw [if_pos hc2, replaceVal_single, if_neg (by simp [hnb]),
          hmset_mget]
      · rw [if_neg hc2]
  have hsel2eq : renameSelKeys
      { df with data := df.data.map (substCol get set a b) }
      ((df.data.map (substCol get set a b)).map
        (fun r => matchStr false [b] (get r)))
      = firstDedup (((df.data.map (substCol get set a b)).filter
          (fun r => matchStr false [b] (get r))).map
        (fun r => (r.model, r.scenario))) := by
    unfold renameSelKeys
    rw [show selectMask
        ({ df with data := df.data.map (substCol get set a b) }
          : IamDataFrame).data
        ((df.data.map (substCol get set a b)).map
          (fun r => matchStr false [b] (get r)))
        = (df.data.map (substCol get set a b)).filter
          (fun r => matchStr false [b] (get r)) from
      selectMask_map_self _ _]
  have hsArg : ∀ mr ∈ df.meta.rows,
      (renameSelKeys df (df.data.map
          (fun r => matchStr false [a] (get r)))).contains mr.key = true →
      (mget mr == a) = true →
      (renameSelKeys { df with data := df.data.map (substCol get set a b) }
          ((df.data.map (substCol get set a b)).map
            (fun r => matchStr false [b] (get r)))).contains
        (kset b mr.key) = true := by
    intro mr hmr h1' h2'
    apply contains_true_of_mem
    rw [hsel2eq]
    exact hselArg mr hmr h1' h2'
  have hmf2 : renameMetaFold
      (renameSelKeys { df with data := df.data.map (substCol get set a b) }
        ((df.data.map (substCol get set a b)).map
          (fun r => matchStr false [b] (get r))))
      (dataCols df)
      (renameIdxMeta mget mset (renameSelKeys df (df.data.map
        (fun r => matchStr false [a] (get r)))) a b df.meta)
      [(col, [(b, a)])] = .ok df.meta := by
    have hstep2 : renameMetaStep
        (renameSelKeys { df with data := df.data.map (substCol get set a b) }
          ((df.data.map (substCol get set a b)).map
            (fun r => matchStr false [b] (get r))))
        (renameIdxMeta mget mset (renameSelKeys df (df.data.map
          (fun r => matchStr false [a] (get r)))) a b df.meta)
        col [(b, a)] = .ok df.meta := by
      simp only [renameMetaStep, hstep]
      have hrows : (renameIdxMeta mget mset (renameSelKeys df (df.data.map
          (fun r => matchStr false [a] (get r)))) a b df.meta).rows.map
          (fun mr =>
            if (renameSelKeys
                { df with data := df.data.map (substCol get set a b) }
                ((df.data.map (substCol get set a b)).map
                  (fun r => matchStr false [b] (get r)))).contains mr.key
            then mset (replaceVal [(b, a)] (mget mr)) mr
            else mr) = df.meta.rows := by
        show (df.meta.rows.map (fun mr =>
            if (renameSelKeys df (df.data.map
                (fun r => matchStr false [a] (get r)))).contains mr.key
            then mset (replaceVal [(a, b)] (mget mr)) mr
            else mr)).map (fun mr =>
            if (renameSelKeys
                { df with data := df.data.map (substCol get set a b) }
                ((df.data.map (substCol get set a b)).map
                  (fun r => matchStr false [b] (get r)))).contains mr.key
            then mset (replaceVal [(b, a)] (mget mr)) mr
            else mr) = df.meta.rows
        rw [List.map_map, List.map_congr_left (hptM _ _ hsArg), List.map_id]
      rw [hrows]
      rw [if_pos hMU']
      rfl
    simp only [renameMetaFold]
    rw [if_pos hms]
    simp only [hstep2]
  refine ⟨_, h1, ?_⟩
  refine Eq.trans (rename_single_ok _ col b a get set (fun _ => True) df.meta
    ?_ hm3 ?_ ?_ ?_ (fun r _ => hset_get r) (fun r _ => trivial) ?_ ?_) ?_
  · exact (by simp [hdcm] :
      ((([(col, [(b, a)])] : RenameMapping).any
          (fun e => e.1 == "model" || e.1 == "scenario"))
        && (([(col, [(b, a)])] : RenameMapping).any
          (fun e => (dataCols df).contains e.1))) = false)
  · exact hrecM _ _
  · exact fun pats r => hrkM pats _ _ r rfl
  · exact fun m r _ => hreplM m _ _ r
  · exact hmf2
  · exact hN2
  · have hfin : ({ df with
        data := ((df.data.map (substCol get set a b)).map
          (substCol get set b a))
        meta := df.meta } : IamDataFrame) = df := by
      rw [hdd]
    exact congrArg Except.ok hfin

/-- C4 counterexample: renaming region `Ra → Rb` and back on `exDf4`, where
`Rb` already occurs in a row differing in `variable`, completes without any
duplicate error yet does not reproduce the original rows: the original
`Rb`-row is gone from the result. -/
theorem c4_counterexample :
    ∃ df1 df2, rename exDf4 [("region", [("Ra", "Rb")])] true = .ok df1
      ∧ rename df1 [("region", [("Rb", "Ra")])] true = .ok df2
      ∧ mkRow "M" "S" "Rb" "V2" "U" 2010 2 ∈ exDf4.data
      ∧ mkRow "M" "S" "Rb" "V2" "U" 2010 2 ∉ df2.data := by
  refine ⟨_, _, rfl, rfl, by decide, by decide⟩

/-- C4 (amended): for a single dimension-value rename `a → b` on any one
dimension of the table - `model`, `scenario`, `region`, `variable`, `unit`,
the time column or an extra column (the column not doubling as a meta
column, extra columns not shadowing reserved dimension names) - applied to
a well-formed container (unique long index, unique meta index, rectangular
extra columns), if the new value `b` does not occur in that column of any
pre-existing data row, nor, for `model`/`scenario`, in the meta index,
then renaming `a → b` followed by `b → a` (both with
`check_duplicates=True`, which raises no error) reproduces the original
container exactly; a rename on the time column is an identity in both
directions because its string mapping never matches a time value. -/
theorem c4_rename_roundtrip (df : IamDataFrame) (col a b : String)
    (hcol : col = "model" ∨ col = "scenario" ∨ col = "region"
      ∨ col = "variable" ∨ col = "unit" ∨ col = df.time_col
      ∨ col ∈ df.extra_cols)
    (htc : df.time_col = "year" ∨ df.time_col = "time")
    (hex : ∀ c ∈ df.extra_cols,
      c ∉ ["model", "scenario", "region", "variable", "unit", "year",
        "month", "day", "hour", "time", "level", "value", "regexp"])
    (hm : df.meta.cols.contains col = false)
    (hU : (df.data.map Row.longIdx).Nodup)
    (hMU : (metaKeys df.meta).Nodup)
    (hwf : ∀ r ∈ df.data, r.extra.length = df.extra_cols.length)
    (hb : col ≠ df.time_col → ∀ r ∈ df.data, colValD df col r ≠ b)
    (hbM : ∀ mr ∈ df.meta.rows,
      (col = "model" → mr.model ≠ b)
        ∧ (col = "scenario" → mr.scenario ≠ b)) :
    ∃ df1, rename df [(col, [(a, b)])] true = .ok df1
      ∧ rename df1 [(col, [(b, a)])] true = .ok df := by
  rcases hcol with hc | hc | hc | hc | hc | hc | hmem
  · -- model: the meta-index path
    subst hc
    have hmemM : "model" ∉ df.meta.cols := by simpa using hm
    have hne : "model" ≠ df.time_col := by
      rcases htc with h | h <;> rw [h] <;> decide
    refine rename_roundtrip_idx_aux df "model" a b (fun r => r.model)
      (fun v r => { r with model := v }) (fun mr => mr.model)
      (fun v mr => { mr with model := v }) (fun v k => (v, k.2))
      rfl rfl ?_ ?_ ?_ ?_
      (fun v r => rfl) (fun r => rfl) (fun v w r => rfl) ?_
      (fun m mr => rfl) (fun v mr => rfl) (fun v mr => rfl)
      (fun mr => rfl) (fun v w mr => rfl) ?_ (fun mr => rfl)
      (fun r mr h => congrArg Prod.fst h) (fun v r => rfl)
      hU hMU ?_ ?_
    · apply contains_false_of_not_mem
      intro hmm
      unfold dataCols at hmm
      rw [List.mem_append] at hmm
      rcases hmm with h' | h'
      · simp only [List.mem_cons, List.not_mem_nil, or_false] at h'
        rcases h' with h' | h' | h' | h'
        · exact absurd h' (by decide)
        · exact absurd h' (by decide)
        · exact absurd h' (by decide)
        · rcases htc with ht | ht <;> rw [ht] at h' <;>
            exact absurd h' (by decide)
      · have := hex "model" h'
        simp at this
    · intro d0 M
      simp [recognized, dataColumns]
    · intro pats d0 M r hMc
      have hmc : M.cols.contains "model" = false := by
        rw [hMc]
        exact hm
      have hmcm : "model" ∉ M.cols := by simpa using hmc
      simp [rowKeep, rowKeep1, regexpFlag, specLookup, dataColumns,
        dataColStr, matchVal, hmc, hmcm]
    · intro m d0 M r
      simp [replaceRowCol]
    · intro v w r r2
      simp only [Row.longIdx, Prod.mk.injEq]
      constructor <;> (intro hx; tauto)
    · intro v w k k2
      simp [Prod.ext_iff]
    · intro r hr
      simpa [colValD] using hb hne r hr
    · intro mr hmr
      exact (hbM mr hmr).1 rfl
  · -- scenario: the meta-index path
    subst hc
    have hmemM : "scenario" ∉ df.meta.cols := by simpa using hm
    have hne : "scenario" ≠ df.time_col := by
      rcases htc with h | h <;> rw [h] <;> decide
    refine rename_roundtrip_idx_aux df "scenario" a b (fun r => r.scenario)
      (fun v r => { r with scenario := v }) (fun mr => mr.scenario)
      (fun v mr => { mr with scenario := v }) (fun v k => (k.1, v))
      rfl rfl ?_ ?_ ?_ ?_
      (fun v r => rfl) (fun r => rfl) (fun v w r => rfl) ?_
      (fun m mr => rfl) (fun v mr => rfl) (fun v mr => rfl)
      (fun mr => rfl) (fun v w mr => rfl) ?_ (fun mr => rfl)
      (fun r mr h => congrArg Prod.snd h) (fun v r => rfl)
      hU hMU ?_ ?_
    · apply contains_false_of_not_mem
      intro hmm
      unfold dataCols at hmm
      rw [List.mem_append] at hmm
      rcases hmm with h' | h'
      · simp only [List.mem_cons, List.not_mem_nil, or_false] at h'
        rcases h' with h' | h' | h' | h'
        · exact absurd h' (by decide)
        · exact absurd h' (by decide)
        · exact absurd h' (by decide)
        · rcases htc with ht | ht <;> rw [ht] at h' <;>
            exact absurd h' (by decide)
      · have := hex "scenario" h'
        simp at this
    · intro d0 M
      simp [recognized, dataColumns]
    · intro pats d0 M r hMc
      have hmc : M.cols.contains "scenario" = false := by
        rw [hMc]
        exact hm
      have hmcm : "scenario" ∉ M.cols := by simpa using hmc
      simp [rowKeep, rowKeep1, regexpFlag, specLookup, dataColumns,
        dataColStr, matchVal, hmc, hmcm]
    · intro m d0 M r
      simp [replaceRowCol]
    · intro v w r r2
      simp only [Row.longIdx, Prod.mk.injEq]
      constructor <;> (intro hx; tauto)
    · intro v w k k2
      constructor
      · intro hx
        have h1 := congrArg Prod.fst hx
        have h2 := congrArg Prod.snd hx
        refine ⟨h2, ?_⟩
        show ((k.1 : String), ("" : String)) = (k2.1, "")
        rw [show (k.1 : String) = k2.1 from h1]
      · intro hx
        have h1 := congrArg Prod.fst hx.2
        show ((k.1 : String), v) = (k2.1, w)
        rw [hx.1, show (k.1 : String) = k2.1 from h1]
    · intro r hr
      simpa [colValD] using hb hne r hr
    · intro mr hmr
      exact (hbM mr hmr).2 rfl
  · -- region
    subst hc
    have hmem : "region" ∉ df.meta.cols := by simpa using hm
    have hne : "region" ≠ df.time_col := by
      rcases htc with h | h <;> rw [h] <;> decide
    refine rename_roundtrip_aux df "region" a b (fun r => r.region)
      (fun v r => { r with region := v }) (fun _ => True) rfl rfl rfl rfl
      (by simp [recognized, dataColumns]) ?_ ?_
      (fun v r _ => rfl) (fun r _ => rfl) (fun v w r _ => rfl)
      (fun v r _ => trivial) ?_ (fun r _ => trivial) hU ?_
    · intro pats d0 r
      simp [rowKeep, rowKeep1, regexpFlag, specLookup, dataColumns,
        dataColStr, matchVal, hm, hmem]
    · intro m d0 r _
      simp [replaceRowCol]
    · intro v w r r2 _ _
      simp only [Row.longIdx, Prod.mk.injEq]
      constructor <;> (intro hx; tauto)
    · intro r hr
      simpa [colValD] using hb hne r hr
  · -- variable
    subst hc
    have hmem : "variable" ∉ df.meta.cols := by simpa using hm
    have hne : "variable" ≠ df.time_col := by
      rcases htc with h | h <;> rw [h] <;> decide
    refine rename_roundtrip_aux df "variable" a b (fun r => r.«variable»)
      (fun v r => { r with «variable» := v }) (fun _ => True) rfl rfl rfl rfl
      (by simp [recognized, dataColumns]) ?_ ?_
      (fun v r _ => rfl) (fun r _ => rfl) (fun v w r _ => rfl)
      (fun v r _ => trivial) ?_ (fun r _ => trivial) hU ?_
    · intro pats d0 r
      simp [rowKeep, rowKeep1, regexpFlag, specLookup, dataColumns,
        dataColStr, matchVal, hm, hmem]
    · intro m d0 r _
      simp [replaceRowCol]
    · intro v w r r2 _ _
      simp only [Row.longIdx, Prod.mk.injEq]
      constructor <;> (intro hx; tauto)
    · intro r hr
      simpa [colValD] using hb hne r hr
  · -- unit
    subst hc
    have hmem : "unit" ∉ df.meta.cols := by simpa using hm
    have hne : "unit" ≠ df.time_col := by
      rcases htc with h | h <;> rw [h] <;> decide
    refine rename_roundtrip_aux df "unit" a b (fun r => r.unit)
      (fun v r => { r with unit := v }) (fun _ => True) rfl rfl rfl rfl
      (by simp [recognized, dataColumns]) ?_ ?_
      (fun v r _ => rfl) (fun r _ => rfl) (fun v w r _ => rfl)
      (fun v r _ => trivial) ?_ (fun r _ => trivial) hU ?_
    · intro pats d0 r
      simp [rowKeep, rowKeep1, regexpFlag, specLookup, dataColumns,
        dataColStr, matchVal, hm, hmem]
    · intro m d0 r _
      simp [replaceRowCol]
    · intro v w r r2 _ _
      simp only [Row.longIdx, Prod.mk.injEq]
      constructor <;> (intro hx; tauto)
    · intro r hr
      simpa [colValD] using hb hne r hr
  · -- the time column: both renames are identities
    subst hc
    exact ⟨df, rename_timecol_noop df a b htc hm hU,
      rename_timecol_noop df b a htc hm hU⟩
  · -- an extra column: positional lens with a width invariant
    rcases colIdx_mem hmem with ⟨i, hci, hilt⟩
    have hx := hex col hmem
    simp only [List.mem_cons, List.not_mem_nil, or_false, not_or] at hx
    obtain ⟨hx1, hx2, hx3, hx4, hx5, hx6, hx7, hx8, hx9, hx10, hx11, hx12,
      hx13⟩ := hx
    have hq1 : (col == "model") = false := beq_eq_false_iff_ne.mpr hx1
    have hq2 : (col == "scenario") = false := beq_eq_false_iff_ne.mpr hx2
    have hq3 : (col == "region") = false := beq_eq_false_iff_ne.mpr hx3
    have hq4 : (col == "variable") = false := beq_eq_false_iff_ne.mpr hx4
    have hq5 : (col == "unit") = false := beq_eq_false_iff_ne.mpr hx5
    have hq6 : (col == "year") = false := beq_eq_false_iff_ne.mpr hx6
    have hq7 : (col == "month") = false := beq_eq_false_iff_ne.mpr hx7
    have hq8 : (col == "day") = false := beq_eq_false_iff_ne.mpr hx8
    have hq9 : (col == "hour") = false := beq_eq_false_iff_ne.mpr hx9
    have hq10 : (col == "time") = false := beq_eq_false_iff_ne.mpr hx10
    have hq11 : (col == "level") = false := beq_eq_false_iff_ne.mpr hx11
    have hq12 : (col == "value") = false := beq_eq_false_iff_ne.mpr hx12
    have hq13 : (col == "regexp") = false := beq_eq_false_iff_ne.mpr hx13
    have hne : col ≠ df.time_col := by
      rcases htc with h | h <;> rw [h]
      · exact hx6
      · exact hx10
    have hmemM : col ∉ df.meta.cols := by simpa using hm
    have hdx : col ∈ dataColumns df := by
      unfold dataColumns
      rw [List.mem_append, List.mem_append]
      exact Or.inl (Or.inr hmem)
    refine rename_roundtrip_aux df col a b
      (fun r => r.extra.getD i "")
      (fun v r => { r with extra := r.extra.set i v })
      (fun r => i < r.extra.length)
      hq1 hq2 hq13 ?_ ?_ ?_ ?_ ?_ ?_ ?_ ?_ ?_ ?_ hU ?_
    · apply contains_true_of_mem
      unfold dataCols
      rw [List.mem_append]
      exact Or.inr hmem
    · simp [recognized, hdx]
    · intro pats d0 r
      simp [rowKeep, rowKeep1, regexpFlag, specLookup, dataColumns,
        dataColStr, matchVal, hmemM, hx1, hx2, hx3, hx4, hx5, hx6, hx7,
        hx8, hx9, hx10, hx11, hx12, hx13, hci, hmem]
    · intro m d0 r _
      simp [replaceRowCol, hq1, hq2, hq3, hq4, hq5, hci]
    · intro v r hP
      exact getD_set_self r.extra i v "" hP
    · intro r hP
      show { r with extra := r.extra.set i (r.extra.getD i "") } = r
      rw [set_getD_self r.extra i "" hP]
    · intro v w r hP
      show { r with extra := (r.extra.set i w).set i v }
        = { r with extra := r.extra.set i v }
      rw [List.set_set]
    · intro v r hP
      show i < (r.extra.set i v).length
      rw [List.length_set]
      exact hP
    · intro v w r r2 hP hP2
      have hiff := set_inj_iff r.extra r2.extra i v w "" hP hP2
      simp only [Row.longIdx, Prod.mk.injEq]
      constructor
      · intro hx'
        have h7 := hiff.mp hx'.2.2.2.2.2.2
        exact ⟨h7.1, hx'.1, hx'.2.1, hx'.2.2.1, hx'.2.2.2.1,
          hx'.2.2.2.2.1, hx'.2.2.2.2.2.1, h7.2⟩
      · intro hx'
        exact ⟨hx'.2.1, hx'.2.2.1, hx'.2.2.2.1, hx'.2.2.2.2.1,
          hx'.2.2.2.2.2.1, hx'.2.2.2.2.2.2.1,
          hiff.mpr ⟨hx'.1, hx'.2.2.2.2.2.2.2⟩⟩
    · intro r hr
      rw [hwf r hr]
      exact hilt
    · intro r hr
      have hbr := hb hne r hr
      simpa [colValD, hq1, hq2, hq3, hq4, hq5, hci] using hbr

/-- C4 witness: the round-trip at a concrete container where `Rb` occurs
nowhere in the region column. -/
theorem c4_rename_roundtrip_witness :
    ∃ df1, rename exDf4g [("region", [("Ra", "Rb")])] true = .ok df1
      ∧ rename df1 [("region", [("Rb", "Ra")])] true = .ok exDf4g :=
  c4_rename_roundtrip exDf4g "region" "Ra" "Rb"
    (Or.inr (Or.inr (Or.inl rfl))) (Or.inl rfl) (by decide) (by decide)
    (by decide) (by decide) (by decide) (by decide) (by decide)
